import Mathlib

/-!
Verification of the Assembunny virtual machine family of the
advent-of-code-python repository.

The development shallowly embeds the three interpreter variants:

* `Day12.run_program`  (src/2016/day_12/solve.py): plain interpreter with an
  inline ADD peephole;
* `Day23` (src/2016/day_23/solve.py): `AssembunnyInterpreter` with the `tgl`
  instruction and the dynamic idiom cache `find_optimizations`;
* `Day25` (src/2016/day_25/solve.py): the signal-verifying variant
  (`test_clock_signal`) with the `out` instruction and cycle detection.

Python-level runtime failures (IndexError from list indexing) are modelled
explicitly with `Except PyErr`, including CPython's negative-index wrap-around
for lists, because several claims turn on exactly that behaviour.
-/

deriving instance DecidableEq for Except

namespace Assembunny

/-- A Python `IndexError` raised by an out-of-range list subscript. -/
inductive PyErr where
  | indexError
deriving DecidableEq, Repr

/-- Mirrors the `Argument` dataclass: a register (`is_reg = true`, `val` is the
register index produced by `reg_map`) or a literal integer value. -/
structure Argument where
  is_reg : Bool
  val : Int
deriving DecidableEq, Repr

/-- The opcodes of the three variants.  Day 12 uses CPY/INC/DEC/JNZ, day 23
adds TGL, day 25 adds OUT. -/
inductive Op where
  | CPY | INC | DEC | JNZ | TGL | OUT
deriving DecidableEq, Repr

/-- Mirrors the `Instruction` dataclass: an opcode and its argument list. -/
structure Instruction where
  op : Op
  args : List Argument
deriving DecidableEq, Repr

/-- The register file `self.regs = [a, b, c, d]` (a Python list of four ints). -/
structure Regs where
  a : Int
  b : Int
  c : Int
  d : Int
deriving DecidableEq, Repr

/-- Python list subscript `l[i]` for an `Int` index: a negative index wraps
around by the list length; anything still out of range raises `IndexError`. -/
def pyIdx {α : Type} (l : List α) (i : Int) : Except PyErr α :=
  let j : Int := if i < 0 then i + l.length else i
  if 0 ≤ j then
    match l.get? j.toNat with
    | some x => .ok x
    | none => .error .indexError
  else .error .indexError

/-- Python list subscript with a known nonnegative index (used for the
argument lists, which are only ever subscripted with 0 and 1). -/
def pyNth {α : Type} (l : List α) (k : Nat) : Except PyErr α :=
  match l.get? k with
  | some x => .ok x
  | none => .error .indexError

/-- `self.regs[i]` for an `Int` index, with CPython list semantics on the
4-element register list: indices 0..3 and the wrapped -4..-1 succeed,
everything else raises `IndexError`. -/
def Regs.getE (r : Regs) (i : Int) : Except PyErr Int :=
  let j : Int := if i < 0 then i + 4 else i
  if j = 0 then .ok r.a
  else if j = 1 then .ok r.b
  else if j = 2 then .ok r.c
  else if j = 3 then .ok r.d
  else .error .indexError

/-- `self.regs[i] = v` with the same CPython index semantics as `Regs.getE`. -/
def Regs.setE (r : Regs) (i v : Int) : Except PyErr Regs :=
  let j : Int := if i < 0 then i + 4 else i
  if j = 0 then .ok { r with a := v }
  else if j = 1 then .ok { r with b := v }
  else if j = 2 then .ok { r with c := v }
  else if j = 3 then .ok { r with d := v }
  else .error .indexError

/-- Total register read, used in specification statements; agrees with
`Regs.getE` on valid register indices 0..3. -/
def Regs.get (r : Regs) (i : Int) : Int :=
  if i = 0 then r.a else if i = 1 then r.b else if i = 2 then r.c else r.d

/-- Total register write, used in specification statements; agrees with
`Regs.setE` on valid register indices 0..3 (and is the identity elsewhere). -/
def Regs.set (r : Regs) (i v : Int) : Regs :=
  if i = 0 then { r with a := v }
  else if i = 1 then { r with b := v }
  else if i = 2 then { r with c := v }
  else if i = 3 then { r with d := v }
  else r

/-- A register index actually produced by the parser's `reg_map`. -/
def ValidReg (i : Int) : Prop := i = 0 ∨ i = 1 ∨ i = 2 ∨ i = 3

instance (i : Int) : Decidable (ValidReg i) := by
  unfold ValidReg; infer_instance

/-- Argument resolution, the recurring source expression
`self.regs[arg.val] if arg.is_reg else arg.val`. -/
def resolveE (r : Regs) (arg : Argument) : Except PyErr Int :=
  if arg.is_reg then r.getE arg.val else .ok arg.val

/-- Total argument resolution for specification statements; agrees with
`resolveE` whenever the register index is valid. -/
def resolveT (r : Regs) (arg : Argument) : Int :=
  if arg.is_reg then r.get arg.val else arg.val

/-- The fused operation cached by `find_optimizations`: the Python tuples
`(3, "ADD", (target, source))` and `(6, "MUL", (target, src_arg, outer, temp))`
(the span length is kept next to the entry, see `OptEntry`). -/
inductive Fused where
  | ADD (target source : Int)
  | MUL (target : Int) (src : Argument) (outer temp : Int)
deriving DecidableEq, Repr

/-- One entry of `self.optimizations`: `(start_offset, (span, fused_op))`. -/
abbrev OptEntry := Nat × Nat × Fused

/-- The 6-instruction MUL-idiom test of `find_optimizations`, with Python's
evaluation (and crash) order: opcodes first, then `p[3].args[1]`,
`p[5].args[1]`, then the captured operands, then the cross-reference checks.
A `jnz`/`cpy`/`inc`/`dec` with too few arguments raises `IndexError` exactly
where CPython would. -/
def matchMulE (p0 p1 p2 p3 p4 p5 : Instruction) : Except PyErr (Option Fused) :=
  if p0.op = .CPY ∧ p1.op = .INC ∧ p2.op = .DEC ∧ p3.op = .JNZ ∧
      p4.op = .DEC ∧ p5.op = .JNZ then
    match pyNth p3.args 1 with
    | .error e => .error e
    | .ok a31 =>
      if a31.is_reg = false ∧ a31.val = -2 then
        match pyNth p5.args 1 with
        | .error e => .error e
        | .ok a51 =>
          if a51.is_reg = false ∧ a51.val = -5 then
            match pyNth p0.args 1 with
            | .error e => .error e
            | .ok a01 =>
              match pyNth p1.args 0 with
              | .error e => .error e
              | .ok a10 =>
                match pyNth p0.args 0 with
                | .error e => .error e
                | .ok a00 =>
                  match pyNth p4.args 0 with
                  | .error e => .error e
                  | .ok a40 =>
                    match pyNth p2.args 0 with
                    | .error e => .error e
                    | .ok a20 =>
                      match pyNth p3.args 0 with
                      | .error e => .error e
                      | .ok a30 =>
                        match pyNth p5.args 0 with
                        | .error e => .error e
                        | .ok a50 =>
                          if a20.val = a01.val ∧ a30.val = a01.val ∧
                              a40.val = a40.val ∧ a50.val = a40.val then
                            .ok (some (.MUL a10.val a00 a40.val a01.val))
                          else .ok none
          else .ok none
      else .ok none
  else .ok none

/-- The 3-instruction ADD-idiom test of `find_optimizations` (both the
`inc x; dec y; jnz y -2` form and the operand-swapped
`dec y; inc x; jnz y -2` form), with Python's evaluation order. -/
def matchAddE (p0 p1 p2 : Instruction) : Except PyErr (Option Fused) :=
  if p2.op = .JNZ then
    match pyNth p2.args 1 with
    | .error e => .error e
    | .ok a21 =>
      if a21.is_reg = false ∧ a21.val = -2 then
        if p0.op = .INC ∧ p1.op = .DEC then
          match pyNth p2.args 0 with
          | .error e => .error e
          | .ok a20 =>
            match pyNth p1.args 0 with
            | .error e => .error e
            | .ok a10 =>
              if a20.val = a10.val then
                match pyNth p0.args 0 with
                | .ok a00 => .ok (some (.ADD a00.val a10.val))
                | .error e => .error e
              else .ok none
        else if p0.op = .DEC ∧ p1.op = .INC then
          match pyNth p2.args 0 with
          | .error e => .error e
          | .ok a20 =>
            match pyNth p0.args 0 with
            | .error e => .error e
            | .ok a00 =>
              if a20.val = a00.val then
                match pyNth p1.args 0 with
                | .ok a10 => .ok (some (.ADD a10.val a00.val))
                | .error e => .error e
              else .ok none
        else .ok none
      else .ok none
  else .ok none

/-- The scan loop of `find_optimizations` over the suffix of the instruction
list that starts at offset `i`: a MUL window is tried when at least six
instructions remain, then an ADD window when at least three remain; a match
is recorded and the scan resumes past the span, otherwise it advances by one.
The result is the association list representing `self.optimizations`. -/
def find_optimizations : List Instruction → Nat → Except PyErr (List OptEntry)
  | p0 :: p1 :: p2 :: p3 :: p4 :: p5 :: rest, i =>
    match matchMulE p0 p1 p2 p3 p4 p5 with
    | .error e => .error e
    | .ok (some f) =>
      match find_optimizations rest (i + 6) with
      | .error e => .error e
      | .ok m => .ok ((i, 6, f) :: m)
    | .ok none =>
      match matchAddE p0 p1 p2 with
      | .error e => .error e
      | .ok (some f) =>
        match find_optimizations (p3 :: p4 :: p5 :: rest) (i + 3) with
        | .error e => .error e
        | .ok m => .ok ((i, 3, f) :: m)
      | .ok none =>
        find_optimizations (p1 :: p2 :: p3 :: p4 :: p5 :: rest) (i + 1)
  | p0 :: p1 :: p2 :: rest, i =>
    match matchAddE p0 p1 p2 with
    | .error e => .error e
    | .ok (some f) =>
      match find_optimizations rest (i + 3) with
      | .error e => .error e
      | .ok m => .ok ((i, 3, f) :: m)
    | .ok none => find_optimizations (p1 :: p2 :: rest) (i + 1)
  | _, _ => .ok []

/-- `self.pc in self.optimizations` / `self.optimizations[self.pc]`: the
dictionary lookup of the cached entry starting at the current pc. -/
def lookupOpt (opts : List OptEntry) (pc : Int) : Option (Nat × Fused) :=
  match opts.find? (fun e => (e.1 : Int) = pc) with
  | some e => some e.2
  | none => none

/-- The in-place opcode flip performed by `tgl` (day 23 lines 246-253 and the
identical day 25 lines 298-309): one-argument instructions toggle
`INC ↔ DEC` (anything else with one argument becomes `INC`), every other
arity toggles `JNZ ↔ CPY`; the argument list is reused unchanged. -/
def toggleInstr (ins : Instruction) : Instruction :=
  if ins.args.length = 1 then
    { ins with op := if ins.op = .INC then .DEC else .INC }
  else
    { ins with op := if ins.op = .JNZ then .CPY else .JNZ }

namespace Day23

/-- The mutable state of `AssembunnyInterpreter` (day 23): the instruction
store, the optimization cache, the register file and the program counter. -/
structure VM where
  instructions : List Instruction
  optimizations : List OptEntry
  regs : Regs
  pc : Int
deriving DecidableEq, Repr

/-- Applying a cached fused operation (day 23 run loop lines 202-217):
the MUL macro performs `regs[target] += val * regs[outer]; regs[temp] = 0;
regs[outer] = 0`, the ADD macro `regs[target] += regs[source];
regs[source] = 0`; then `pc += skip`. -/
def applyFusedE (skip : Nat) (f : Fused) (s : VM) : Except PyErr VM :=
  match f with
  | .ADD target source =>
    match s.regs.getE target with
    | .error e => .error e
    | .ok tv =>
      match s.regs.getE source with
      | .error e => .error e
      | .ok sv =>
        match s.regs.setE target (tv + sv) with
        | .ok r1 =>
          match r1.setE source 0 with
          | .ok r2 => .ok { s with regs := r2, pc := s.pc + skip }
          | .error e => .error e
        | .error e => .error e
  | .MUL target src outer temp =>
    match resolveE s.regs src with
    | .error e => .error e
    | .ok v =>
      match s.regs.getE target with
      | .error e => .error e
      | .ok tv =>
        match s.regs.getE outer with
        | .error e => .error e
        | .ok ov =>
          match s.regs.setE target (tv + v * ov) with
          | .ok r1 =>
            match r1.setE temp 0 with
            | .ok r2 =>
              match r2.setE outer 0 with
              | .ok r3 => .ok { s with regs := r3, pc := s.pc + skip }
              | .error e => .error e
            | .error e => .error e
          | .error e => .error e

/-- The instruction-by-instruction branch of the day 23 run loop
(lines 219-255): fetch `self.instructions[self.pc]` (with CPython's
negative-index wrap) and dispatch on the opcode.  `OUT` is not an opcode of
the day 23 interpreter; since the Python dispatch is an if/elif chain with no
else, such an instruction would leave the whole state unchanged. -/
def instrStepE (s : VM) : Except PyErr VM :=
  match pyIdx s.instructions s.pc with
  | .error e => .error e
  | .ok instr =>
    match instr.op with
    | .CPY =>
      match pyNth instr.args 1 with
      | .error e => .error e
      | .ok a1 =>
        if a1.is_reg then
          match pyNth instr.args 0 with
          | .error e => .error e
          | .ok a0 =>
            match resolveE s.regs a0 with
            | .error e => .error e
            | .ok v =>
              match s.regs.setE a1.val v with
              | .ok r => .ok { s with regs := r, pc := s.pc + 1 }
              | .error e => .error e
        else .ok { s with pc := s.pc + 1 }
    | .INC =>
      match pyNth instr.args 0 with
      | .error e => .error e
      | .ok a0 =>
        if a0.is_reg then
          match s.regs.getE a0.val with
          | .error e => .error e
          | .ok v =>
            match s.regs.setE a0.val (v + 1) with
            | .ok r => .ok { s with regs := r, pc := s.pc + 1 }
            | .error e => .error e
        else .ok { s with pc := s.pc + 1 }
    | .DEC =>
      match pyNth instr.args 0 with
      | .error e => .error e
      | .ok a0 =>
        if a0.is_reg then
          match s.regs.getE a0.val with
          | .error e => .error e
          | .ok v =>
            match s.regs.setE a0.val (v - 1) with
            | .ok r => .ok { s with regs := r, pc := s.pc + 1 }
            | .error e => .error e
        else .ok { s with pc := s.pc + 1 }
    | .JNZ =>
      match pyNth instr.args 0 with
      | .error e => .error e
      | .ok a0 =>
        match resolveE s.regs a0 with
        | .error e => .error e
        | .ok v =>
          if v ≠ 0 then
            match pyNth instr.args 1 with
            | .error e => .error e
            | .ok a1 =>
              match resolveE s.regs a1 with
              | .error e => .error e
              | .ok off => .ok { s with pc := s.pc + off }
          else .ok { s with pc := s.pc + 1 }
    | .TGL =>
      match pyNth instr.args 0 with
      | .error e => .error e
      | .ok a0 =>
        match resolveE s.regs a0 with
        | .error e => .error e
        | .ok v =>
          let t := s.pc + v
          if 0 ≤ t ∧ t < s.instructions.length then
            match pyIdx s.instructions t with
            | .error e => .error e
            | .ok ti =>
              let newInstrs := s.instructions.set t.toNat (toggleInstr ti)
              match find_optimizations newInstrs 0 with
              | .error e => .error e
              | .ok m =>
                .ok { s with instructions := newInstrs, optimizations := m,
                             pc := s.pc + 1 }
          else .ok { s with pc := s.pc + 1 }
    | .OUT => .ok s

/-- One iteration of the day 23 run loop: the optimization cache is consulted
first; only on a miss is the current instruction executed. -/
def stepE (s : VM) : Except PyErr VM :=
  match lookupOpt s.optimizations s.pc with
  | some (skip, f) => applyFusedE skip f s
  | none => instrStepE s

/-- The `while self.pc < self.n` loop of `run`, with explicit fuel;
`.ok none` means the fuel ran out with the machine still running. -/
def runLoopE : Nat → VM → Except PyErr (Option VM)
  | 0, _ => .ok none
  | fuel + 1, s =>
    if s.pc < (s.instructions.length : Int) then
      match stepE s with
      | .error e => .error e
      | .ok s1 => runLoopE fuel s1
    else .ok (some s)

/-- `AssembunnyInterpreter.run` (day 23): reset the registers to
`[initial_a, 0, 0, 0]` and the pc to 0, recompute the optimization cache from
the *current* instruction store, and loop.  The result is the final machine
state (the Python method returns `self.regs[0]`, which is `(·.regs.a)`); the
final state also carries the possibly TGL-mutated instruction store that the
interpreter object keeps for later calls. -/
def run (instrs : List Instruction) (initial_a : Int) (fuel : Nat) :
    Except PyErr (Option VM) :=
  match find_optimizations instrs 0 with
  | .error e => .error e
  | .ok m =>
    runLoopE fuel { instructions := instrs, optimizations := m,
                    regs := ⟨initial_a, 0, 0, 0⟩, pc := 0 }

/-- The non-optimized reference run loop: the same `while self.pc < self.n`
loop but always taking the instruction-by-instruction branch, never the
cache.  Modelled from the spec: the spec's idiom-equivalence obligation
compares a fused window against "executing the matched instructions one by
one", i.e. against exactly this iteration of the fall-back branch. -/
def plainLoopE : Nat → VM → Except PyErr (Option VM)
  | 0, _ => .ok none
  | fuel + 1, s =>
    if s.pc < (s.instructions.length : Int) then
      match instrStepE s with
      | .error e => .error e
      | .ok s1 => plainLoopE fuel s1
    else .ok (some s)

end Day23

namespace Day25

/-- The state of the day 25 `AssembunnyInterpreter` during `test_clock_signal`:
the day 23 machine state plus the visited-state table `seen_states`, the
expected next output bit and the output counter. -/
structure SigVM where
  instructions : List Instruction
  optimizations : List OptEntry
  regs : Regs
  pc : Int
  seen : List ((Int × Regs × Int) × Nat)
  next_expected : Int
  output_count : Nat
deriving DecidableEq, Repr

/-- The state key `(self.pc, tuple(self.regs), next_expected)`. -/
def stateKey (s : SigVM) : Int × Regs × Int := (s.pc, s.regs, s.next_expected)

/-- `seen_states` lookup. -/
def lookupSeen (tbl : List ((Int × Regs × Int) × Nat)) (k : Int × Regs × Int) :
    Option Nat :=
  match tbl.find? (fun e => e.1 = k) with
  | some e => some e.2
  | none => none

/-- Applying a cached fused operation inside `test_clock_signal`
(day 25 lines 246-261), identical to the day 23 version. -/
def applyFusedE (skip : Nat) (f : Fused) (s : SigVM) : Except PyErr SigVM :=
  match f with
  | .ADD target source =>
    match s.regs.getE target with
    | .error e => .error e
    | .ok tv =>
      match s.regs.getE source with
      | .error e => .error e
      | .ok sv =>
        match s.regs.setE target (tv + sv) with
        | .ok r1 =>
          match r1.setE source 0 with
          | .ok r2 => .ok { s with regs := r2, pc := s.pc + skip }
          | .error e => .error e
        | .error e => .error e
  | .MUL target src outer temp =>
    match resolveE s.regs src with
    | .error e => .error e
    | .ok v =>
      match s.regs.getE target with
      | .error e => .error e
      | .ok tv =>
        match s.regs.getE outer with
        | .error e => .error e
        | .ok ov =>
          match s.regs.setE target (tv + v * ov) with
          | .ok r1 =>
            match r1.setE temp 0 with
            | .ok r2 =>
              match r2.setE outer 0 with
              | .ok r3 => .ok { s with regs := r3, pc := s.pc + skip }
              | .error e => .error e
            | .error e => .error e
          | .error e => .error e

/-- The instruction dispatch of `test_clock_signal` (day 25 lines 263-313):
like day 23 plus `OUT`, which rejects immediately (`Sum.inl false`) when the
resolved value differs from `next_expected` and otherwise flips
`next_expected` and counts the output.  `Sum.inr` is the continuing state. -/
def instrStepE (s : SigVM) : Except PyErr (Sum Bool SigVM) :=
  match pyIdx s.instructions s.pc with
  | .error e => .error e
  | .ok instr =>
    match instr.op with
    | .CPY =>
      match pyNth instr.args 1 with
      | .error e => .error e
      | .ok a1 =>
        if a1.is_reg then
          match pyNth instr.args 0 with
          | .error e => .error e
          | .ok a0 =>
            match resolveE s.regs a0 with
            | .error e => .error e
            | .ok v =>
              match s.regs.setE a1.val v with
              | .ok r => .ok (.inr { s with regs := r, pc := s.pc + 1 })
              | .error e => .error e
        else .ok (.inr { s with pc := s.pc + 1 })
    | .INC =>
      match pyNth instr.args 0 with
      | .error e => .error e
      | .ok a0 =>
        if a0.is_reg then
          match s.regs.getE a0.val with
          | .error e => .error e
          | .ok v =>
            match s.regs.setE a0.val (v + 1) with
            | .ok r => .ok (.inr { s with regs := r, pc := s.pc + 1 })
            | .error e => .error e
        else .ok (.inr { s with pc := s.pc + 1 })
    | .DEC =>
      match pyNth instr.args 0 with
      | .error e => .error e
      | .ok a0 =>
        if a0.is_reg then
          match s.regs.getE a0.val with
          | .error e => .error e
          | .ok v =>
            match s.regs.setE a0.val (v - 1) with
            | .ok r => .ok (.inr { s with regs := r, pc := s.pc + 1 })
            | .error e => .error e
        else .ok (.inr { s with pc := s.pc + 1 })
    | .JNZ =>
      match pyNth instr.args 0 with
      | .error e => .error e
      | .ok a0 =>
        match resolveE s.regs a0 with
        | .error e => .error e
        | .ok v =>
          if v ≠ 0 then
            match pyNth instr.args 1 with
            | .error e => .error e
            | .ok a1 =>
              match resolveE s.regs a1 with
              | .error e => .error e
              | .ok off => .ok (.inr { s with pc := s.pc + off })
          else .ok (.inr { s with pc := s.pc + 1 })
    | .OUT =>
      match pyNth instr.args 0 with
      | .error e => .error e
      | .ok a0 =>
        match resolveE s.regs a0 with
        | .error e => .error e
        | .ok v =>
          if v ≠ s.next_expected then .ok (.inl false)
          else .ok (.inr { s with next_expected := 1 - s.next_expected,
                                  output_count := s.output_count + 1,
                                  pc := s.pc + 1 })
    | .TGL =>
      match pyNth instr.args 0 with
      | .error e => .error e
      | .ok a0 =>
        match resolveE s.regs a0 with
        | .error e => .error e
        | .ok v =>
          let t := s.pc + v
          if 0 ≤ t ∧ t < s.instructions.length then
            match pyIdx s.instructions t with
            | .error e => .error e
            | .ok ti =>
              let newInstrs := s.instructions.set t.toNat (toggleInstr ti)
              match find_optimizations newInstrs 0 with
              | .error e => .error e
              | .ok m =>
                .ok (.inr { s with instructions := newInstrs,
                                   optimizations := m, pc := s.pc + 1 })
          else .ok (.inr { s with pc := s.pc + 1 })

/-- One full iteration of the `test_clock_signal` loop (day 25 lines
238-313): halt check, visited-state lookup (an early `return` with the
output-count comparison on a repeat), recording of the fresh key, then the
cache consultation and the instruction dispatch.  `Sum.inl` is a returned
verdict, `Sum.inr` the next state. -/
def sigBodyE (s : SigVM) : Except PyErr (Sum Bool SigVM) :=
  if s.pc < (s.instructions.length : Int) then
    match lookupSeen s.seen (stateKey s) with
    | some prev => .ok (.inl (decide (prev < s.output_count)))
    | none =>
      let s1 : SigVM := { s with seen := (stateKey s, s.output_count) :: s.seen }
      match lookupOpt s1.optimizations s1.pc with
      | some (skip, f) =>
        match applyFusedE skip f s1 with
        | .error e => .error e
        | .ok s2 => .ok (.inr s2)
      | none => instrStepE s1
  else .ok (.inl false)

/-- The `test_clock_signal` loop with fuel; `.ok none` means the fuel ran
out before a verdict. -/
def sigLoopE : Nat → SigVM → Except PyErr (Option Bool)
  | 0, _ => .ok none
  | fuel + 1, s =>
    match sigBodyE s with
    | .error e => .error e
    | .ok (.inl b) => .ok (some b)
    | .ok (.inr s1) => sigLoopE fuel s1

/-- `AssembunnyInterpreter.test_clock_signal` (day 25): reset registers and
pc, start with an empty visited-state table, `next_expected = 0` and a zero
output counter, and loop.  The optimization cache is the one computed at
construction time (it is *not* recomputed at the start of this method). -/
def test_clock_signal (instrs : List Instruction) (opts : List OptEntry)
    (initial_a : Int) (fuel : Nat) : Except PyErr (Option Bool) :=
  sigLoopE fuel { instructions := instrs, optimizations := opts,
                  regs := ⟨initial_a, 0, 0, 0⟩, pc := 0, seen := [],
                  next_expected := 0, output_count := 0 }

end Day25

namespace Day12

/-- One iteration of the `run_program` loop (day 12 lines 60-105): fetch
`parsed_instrs[pc]`, try the inline ADD peephole on the three instructions at
`pc`, `pc+1`, `pc+2`, and otherwise dispatch.  Day 12 guards nothing: INC,
DEC and the CPY destination subscript the register list with whatever value
the operand carries, and a taken JNZ adds the *stored* second-operand value
to `pc` (`pc += args[1][1]`), never resolving it through the registers. -/
def stepE (instrs : List Instruction) (r : Regs) (pc : Int) :
    Except PyErr (Regs × Int) :=
  match pyIdx instrs pc with
  | .error e => .error e
  | .ok instr =>
    let fallback : Except PyErr (Regs × Int) :=
      match instr.op with
      | .CPY =>
        match pyNth instr.args 0 with
        | .error e => .error e
        | .ok a0 =>
          match resolveE r a0 with
          | .error e => .error e
          | .ok v =>
            match pyNth instr.args 1 with
            | .error e => .error e
            | .ok a1 =>
              match r.setE a1.val v with
              | .ok r1 => .ok (r1, pc + 1)
              | .error e => .error e
      | .INC =>
        match pyNth instr.args 0 with
        | .error e => .error e
        | .ok a0 =>
          match r.getE a0.val with
          | .error e => .error e
          | .ok v =>
            match r.setE a0.val (v + 1) with
            | .ok r1 => .ok (r1, pc + 1)
            | .error e => .error e
      | .DEC =>
        match pyNth instr.args 0 with
        | .error e => .error e
        | .ok a0 =>
          match r.getE a0.val with
          | .error e => .error e
          | .ok v =>
            match r.setE a0.val (v - 1) with
            | .ok r1 => .ok (r1, pc + 1)
            | .error e => .error e
      | .JNZ =>
        match pyNth instr.args 0 with
        | .error e => .error e
        | .ok a0 =>
          match resolveE r a0 with
          | .error e => .error e
          | .ok v =>
            if v ≠ 0 then
              match pyNth instr.args 1 with
              | .error e => .error e
              | .ok a1 => .ok (r, pc + a1.val)
            else .ok (r, pc + 1)
      | _ => .ok (r, pc + 1)
    if pc + 2 < (instrs.length : Int) then
      match pyIdx instrs (pc + 1) with
      | .error e => .error e
      | .ok i2 =>
        match pyIdx instrs (pc + 2) with
        | .error e => .error e
        | .ok i3 =>
        if i3.op = .JNZ then
          match pyNth i3.args 0 with
          | .error e => .error e
          | .ok a30 =>
            match pyNth i2.args 0 with
            | .error e => .error e
            | .ok a20 =>
              if a30.is_reg = true ∧ a30.val = a20.val then
                match pyNth i3.args 1 with
                | .error e => .error e
                | .ok a31 =>
                  if a31.is_reg = false ∧ a31.val = -2 then
                    if instr.op = .INC ∧ i2.op = .DEC then
                      match pyNth instr.args 0 with
                      | .error e => .error e
                      | .ok a00 =>
                        match r.getE a00.val with
                        | .error e => .error e
                        | .ok av =>
                          match r.getE a20.val with
                          | .error e => .error e
                          | .ok bv =>
                            match r.setE a00.val (av + bv) with
                            | .ok r1 =>
                              match r1.setE a20.val 0 with
                              | .ok r2 => .ok (r2, pc + 3)
                              | .error e => .error e
                            | .error e => .error e
                    else if instr.op = .DEC ∧ i2.op = .INC then
                      match pyNth instr.args 0 with
                      | .error e => .error e
                      | .ok a00 =>
                        match r.getE a20.val with
                        | .error e => .error e
                        | .ok av =>
                          match r.getE a00.val with
                          | .error e => .error e
                          | .ok bv =>
                            match r.setE a20.val (av + bv) with
                            | .ok r1 =>
                              match r1.setE a00.val 0 with
                              | .ok r2 => .ok (r2, pc + 3)
                              | .error e => .error e
                            | .error e => .error e
                    else fallback
                  else fallback
              else fallback
        else fallback
    else fallback

/-- The `while pc < n` loop of `run_program`, with fuel. -/
def runLoopE (instrs : List Instruction) : Nat → Regs → Int →
    Except PyErr (Option Regs)
  | 0, _, _ => .ok none
  | fuel + 1, r, pc =>
    if pc < (instrs.length : Int) then
      match stepE instrs r pc with
      | .error e => .error e
      | .ok (r1, pc1) => runLoopE instrs fuel r1 pc1
    else .ok (some r)

/-- `run_program` (day 12) on an already-parsed program, starting from the
given initial register file and `pc = 0`. -/
def run_program (instrs : List Instruction) (init : Regs) (fuel : Nat) :
    Except PyErr (Option Regs) :=
  runLoopE instrs fuel init 0

end Day12

/-! ### Well-formedness predicates and specification-level shorthands -/

/-- A register argument. -/
def regArg (i : Int) : Argument := ⟨true, i⟩

/-- A literal argument. -/
def litArg (v : Int) : Argument := ⟨false, v⟩

/-- The argument count the mnemonic table implies for each opcode:
`cpy`/`jnz` take two operands, `inc`/`dec`/`tgl`/`out` take one. -/
def opArity : Op → Nat
  | .CPY => 2
  | .JNZ => 2
  | _ => 1

/-- An instruction whose argument list has the arity of its opcode and whose
register arguments carry indices the parser's `reg_map` can produce. -/
def InstrWF (ins : Instruction) : Prop :=
  ins.args.length = opArity ins.op ∧
    ∀ arg ∈ ins.args, arg.is_reg = true → ValidReg arg.val

/-- A program every instruction of which is well-formed. -/
def ProgWF (instrs : List Instruction) : Prop := ∀ ins ∈ instrs, InstrWF ins

/-- The captured operands of a cached fused operation denote actual
registers.  (The matcher compares only `.val` fields, so a literal operand
whose value happens to look like a register index can be captured; such an
entry would make the macro subscript the register list out of range.) -/
def FusedRegsOk : Fused → Prop
  | .ADD target source => ValidReg target ∧ ValidReg source
  | .MUL target src outer temp =>
    ValidReg target ∧ ValidReg outer ∧ ValidReg temp ∧
      (src.is_reg = true → ValidReg src.val)

/-- Every cached entry captures register operands. -/
def OptsRegsOk (opts : List OptEntry) : Prop := ∀ e ∈ opts, FusedRegsOk e.2.2

instance (ins : Instruction) : Decidable (InstrWF ins) := by
  unfold InstrWF; infer_instance

instance (l : List Instruction) : Decidable (ProgWF l) := by
  unfold ProgWF; infer_instance

instance : (f : Fused) → Decidable (FusedRegsOk f)
  | .ADD _ _ => by unfold FusedRegsOk; infer_instance
  | .MUL _ _ _ _ => by unfold FusedRegsOk; infer_instance

instance (opts : List OptEntry) : Decidable (OptsRegsOk opts) := by
  unfold OptsRegsOk; infer_instance

/-- The ADD-idiom window `inc x; dec y; jnz y -2` with register operands. -/
def addWindow (x y : Int) : List Instruction :=
  [⟨.INC, [regArg x]⟩, ⟨.DEC, [regArg y]⟩, ⟨.JNZ, [regArg y, litArg (-2)]⟩]

/-- The operand-swapped ADD-idiom window `dec y; inc x; jnz y -2`. -/
def addWindowSwapped (x y : Int) : List Instruction :=
  [⟨.DEC, [regArg y]⟩, ⟨.INC, [regArg x]⟩, ⟨.JNZ, [regArg y, litArg (-2)]⟩]

/-- The MUL-idiom window `cpy src c; inc a; dec c; jnz c -2; dec d; jnz d -5`
with register loop operands. -/
def mulWindow (a : Int) (src : Argument) (c d : Int) : List Instruction :=
  [⟨.CPY, [src, regArg c]⟩, ⟨.INC, [regArg a]⟩, ⟨.DEC, [regArg c]⟩,
   ⟨.JNZ, [regArg c, litArg (-2)]⟩, ⟨.DEC, [regArg d]⟩,
   ⟨.JNZ, [regArg d, litArg (-5)]⟩]

/-- Spans of two cached entries do not overlap. -/
def SpansDisjoint (e1 e2 : OptEntry) : Prop :=
  e1.1 + e1.2.1 ≤ e2.1 ∨ e2.1 + e2.2.1 ≤ e1.1

/-- The scan result, from start offset `i` on: every entry starts at or after
`i` and the next entry starts at or after the end of the previous span. -/
def ScanChain : Nat → List OptEntry → Prop
  | _, [] => True
  | i, e :: rest => i ≤ e.1 ∧ ScanChain (e.1 + e.2.1) rest

/-- The window of `instrs` at a cached entry `(i, span, f)`, re-examined by
the matcher the scan used for that span length. -/
def windowMatch (instrs : List Instruction) (i span : Nat) (f : Fused) : Prop :=
  if span = 6 then
    match instrs.drop i with
    | p0 :: p1 :: p2 :: p3 :: p4 :: p5 :: _ =>
      matchMulE p0 p1 p2 p3 p4 p5 = .ok (some f)
    | _ => False
  else if span = 3 then
    match instrs.drop i with
    | p0 :: p1 :: p2 :: _ => matchAddE p0 p1 p2 = .ok (some f)
    | _ => False
  else False

/-! ### Concrete programs used by individual claims -/

/-- `jnz 1 -2`: one taken jump makes `pc = -2`; with a single instruction the
wrapped index -2 + 1 is still negative, so the next fetch raises. -/
def progJnzFarNeg : List Instruction := [⟨.JNZ, [litArg 1, litArg (-2)]⟩]

/-- `jnz 1 -1; inc a`: a taken jump to `pc = -1`, which CPython resolves to
the last instruction of the list. -/
def progJnzWrap : List Instruction :=
  [⟨.JNZ, [litArg 1, litArg (-1)]⟩, ⟨.INC, [regArg 0]⟩]

/-- `cpy d c; inc a; dec c; jnz c -2; dec d; jnz d -5`: a MUL window whose
source operand aliases the outer loop counter `d`. -/
def progMulAlias : List Instruction := mulWindow 0 (regArg 3) 2 3

/-- `cpy 1`: a single-operand `cpy` line; each operand decodes, but executing
it subscripts `args[1]`, which does not exist. -/
def progCpyShort : List Instruction := [⟨.CPY, [litArg 1]⟩]

/-- `tgl 1; inc a`: the first run toggles `inc a` into `dec a` in the stored
program, and the store is never reset afterwards. -/
def progTglPersist : List Instruction :=
  [⟨.TGL, [litArg 1]⟩, ⟨.INC, [regArg 0]⟩]

/-- The instruction store `progTglPersist` leaves behind: the first run's
`tgl 1` has rewritten `inc a` into `dec a`. -/
def progTglPersistAfter : List Instruction :=
  [⟨.TGL, [litArg 1]⟩, ⟨.DEC, [regArg 0]⟩]

/-- `inc a; inc a`: a program that contains no `tgl` at all. -/
def progNoTgl : List Instruction :=
  [⟨.INC, [regArg 0]⟩, ⟨.INC, [regArg 0]⟩]

/-- The canonical MUL scenario
`cpy 2 a; cpy 3 b; cpy 4 c; inc a; dec c; jnz c -2; dec b; jnz b -5`. -/
def progScenario : List Instruction :=
  [⟨.CPY, [litArg 2, regArg 0]⟩, ⟨.CPY, [litArg 3, regArg 1]⟩,
   ⟨.CPY, [litArg 4, regArg 2]⟩, ⟨.INC, [regArg 0]⟩, ⟨.DEC, [regArg 2]⟩,
   ⟨.JNZ, [regArg 2, litArg (-2)]⟩, ⟨.DEC, [regArg 1]⟩,
   ⟨.JNZ, [regArg 1, litArg (-5)]⟩]

/-- `cpy 3 b; jnz 1 b; inc a; inc a`: a taken `jnz` whose offset operand is
the register `b`. -/
def progJnzRegOffset : List Instruction :=
  [⟨.CPY, [litArg 3, regArg 1]⟩, ⟨.JNZ, [litArg 1, regArg 1]⟩,
   ⟨.INC, [regArg 0]⟩, ⟨.INC, [regArg 0]⟩]

/-- `inc a; dec b; jnz 1 -2`: the `jnz` condition is the literal 1, whose
value coincides with the register index of `b`. -/
def progAddLitCond : List Instruction :=
  [⟨.INC, [regArg 0]⟩, ⟨.DEC, [regArg 1]⟩, ⟨.JNZ, [litArg 1, litArg (-2)]⟩]

/-- Extract the final value of register `a` from a finished day 23 run. -/
def finalA (res : Except PyErr (Option Day23.VM)) : Option Int :=
  match res with
  | .ok (some vm) => some vm.regs.a
  | _ => none

/-! ## Theorems

First the register-file and resolution lemmas, then generic lemmas about the
day 23 step function, the scanner, and finally the claim theorems. -/

theorem Regs.getE_valid {i : Int} (hi : ValidReg i) (r : Regs) :
    r.getE i = .ok (r.get i) := by
  rcases hi with rfl | rfl | rfl | rfl <;> simp [Regs.getE, Regs.get]

theorem Regs.setE_valid {i : Int} (hi : ValidReg i) (r : Regs) (v : Int) :
    r.setE i v = .ok (r.set i v) := by
  rcases hi with rfl | rfl | rfl | rfl <;> simp [Regs.setE, Regs.set]

theorem Regs.get_set_self {i : Int} (hi : ValidReg i) (r : Regs) (v : Int) :
    (r.set i v).get i = v := by
  rcases hi with rfl | rfl | rfl | rfl <;> simp [Regs.set, Regs.get]

theorem Regs.get_set_ne {i j : Int} (hi : ValidReg i) (hj : ValidReg j)
    (hij : i ≠ j) (r : Regs) (v : Int) : (r.set i v).get j = r.get j := by
  rcases hi with rfl | rfl | rfl | rfl <;> rcases hj with rfl | rfl | rfl | rfl <;>
    first
      | exact absurd rfl hij
      | simp [Regs.set, Regs.get]

theorem Regs.set_set_self (r : Regs) (i v w : Int) :
    (r.set i v).set i w = r.set i w := by
  unfold Regs.set
  by_cases h0 : i = 0 <;> by_cases h1 : i = 1 <;> by_cases h2 : i = 2 <;>
    by_cases h3 : i = 3 <;> simp [h0, h1, h2, h3]

theorem Regs.eq_of_get {r s : Regs}
    (h : ∀ i : Int, ValidReg i → r.get i = s.get i) : r = s := by
  have h0 := h 0 (by left; rfl)
  have h1 := h 1 (by right; left; rfl)
  have h2 := h 2 (by right; right; left; rfl)
  have h3 := h 3 (by right; right; right; rfl)
  simp [Regs.get] at h0 h1 h2 h3
  cases r; cases s; simp_all

theorem resolveE_valid {arg : Argument} (h : arg.is_reg = true → ValidReg arg.val)
    (r : Regs) : resolveE r arg = .ok (resolveT r arg) := by
  unfold resolveE resolveT
  cases harg : arg.is_reg with
  | false => simp
  | true => simp [Regs.getE_valid (h harg)]

/-! ### One-step characterizations of the day 23 fall-back dispatch -/

theorem Day23.instrStepE_inc (s : Day23.VM) (x : Int) (hx : ValidReg x)
    (hf : pyIdx s.instructions s.pc = .ok ⟨.INC, [regArg x]⟩) :
    Day23.instrStepE s =
      .ok { s with regs := s.regs.set x (s.regs.get x + 1), pc := s.pc + 1 } := by
  simp [Day23.instrStepE, hf, pyNth, regArg, Regs.getE_valid hx, Regs.setE_valid hx]

theorem Day23.instrStepE_dec (s : Day23.VM) (x : Int) (hx : ValidReg x)
    (hf : pyIdx s.instructions s.pc = .ok ⟨.DEC, [regArg x]⟩) :
    Day23.instrStepE s =
      .ok { s with regs := s.regs.set x (s.regs.get x - 1), pc := s.pc + 1 } := by
  simp [Day23.instrStepE, hf, pyNth, regArg, Regs.getE_valid hx, Regs.setE_valid hx]

theorem Day23.instrStepE_cpy (s : Day23.VM) (src : Argument) (dst v : Int)
    (hd : ValidReg dst)
    (hf : pyIdx s.instructions s.pc = .ok ⟨.CPY, [src, regArg dst]⟩)
    (hv : resolveE s.regs src = .ok v) :
    Day23.instrStepE s =
      .ok { s with regs := s.regs.set dst v, pc := s.pc + 1 } := by
  simp [Day23.instrStepE, hf, pyNth, regArg, hv, Regs.setE_valid hd]

theorem Day23.instrStepE_jnz_taken (s : Day23.VM) (a0 a1 : Argument) (v off : Int)
    (hf : pyIdx s.instructions s.pc = .ok ⟨.JNZ, [a0, a1]⟩)
    (hv : resolveE s.regs a0 = .ok v) (hnz : v ≠ 0)
    (hoff : resolveE s.regs a1 = .ok off) :
    Day23.instrStepE s = .ok { s with pc := s.pc + off } := by
  simp [Day23.instrStepE, hf, pyNth, hv, hnz, hoff]

theorem Day23.instrStepE_jnz_zero (s : Day23.VM) (a0 a1 : Argument)
    (hf : pyIdx s.instructions s.pc = .ok ⟨.JNZ, [a0, a1]⟩)
    (hv : resolveE s.regs a0 = .ok 0) :
    Day23.instrStepE s = .ok { s with pc := s.pc + 1 } := by
  simp [Day23.instrStepE, hf, pyNth, hv]

theorem Day23.plainLoopE_step (fuel : Nat) (s s1 : Day23.VM)
    (h1 : s.pc < (s.instructions.length : Int))
    (h2 : Day23.instrStepE s = .ok s1) :
    Day23.plainLoopE (fuel + 1) s = Day23.plainLoopE fuel s1 := by
  simp [Day23.plainLoopE, h1, h2]

/-! ### Register-chain normalizations used by the window inductions -/

theorem Regs.shuffleA {x y : Int} (hx : ValidReg x) (hy : ValidReg y)
    (hxy : x ≠ y) (r : Regs) (u v w z : Int) :
    (((r.set x u).set y v).set x w).set y z = (r.set x w).set y z := by
  rcases hx with rfl | rfl | rfl | rfl <;> rcases hy with rfl | rfl | rfl | rfl <;>
    first
      | exact absurd rfl hxy
      | simp [Regs.set]

theorem Regs.shuffleB {x y : Int} (hx : ValidReg x) (hy : ValidReg y)
    (hxy : x ≠ y) (r : Regs) (v w z : Int) :
    ((r.set y v).set x w).set y z = (r.set x w).set y z := by
  rcases hx with rfl | rfl | rfl | rfl <;> rcases hy with rfl | rfl | rfl | rfl <;>
    first
      | exact absurd rfl hxy
      | simp [Regs.set]

theorem Regs.shuffleC {a c d : Int} (ha : ValidReg a) (hc : ValidReg c)
    (hd : ValidReg d) (hac : a ≠ c) (had : a ≠ d) (hcd : c ≠ d)
    (r : Regs) (u k x : Int) :
    (((((r.set a u).set c 0).set d k).set a x).set c 0).set d 0 =
      ((r.set a x).set c 0).set d 0 := by
  rcases ha with rfl | rfl | rfl | rfl <;> rcases hc with rfl | rfl | rfl | rfl <;>
    rcases hd with rfl | rfl | rfl | rfl <;>
    first
      | exact absurd rfl hac
      | exact absurd rfl had
      | exact absurd rfl hcd
      | simp [Regs.set]

/-! ### Executing an ADD-idiom window instruction by instruction -/

theorem Day23.plainLoopE_shift (f g : Nat) (s s1 : Day23.VM) (hfg : f = g + 1)
    (h1 : s.pc < (s.instructions.length : Int))
    (h2 : Day23.instrStepE s = .ok s1) :
    Day23.plainLoopE f s = Day23.plainLoopE g s1 := by
  subst hfg; simp [Day23.plainLoopE, h1, h2]

theorem Day23.addWindow_loop (x y : Int) (hx : ValidReg x) (hy : ValidReg y)
    (hxy : x ≠ y) : ∀ m : Nat, 1 ≤ m →
    ∀ (fuel : Nat) (o : List OptEntry) (r : Regs), r.get y = (m : Int) →
    Day23.plainLoopE (3 * m + fuel) ⟨addWindow x y, o, r, 0⟩ =
      Day23.plainLoopE fuel
        ⟨addWindow x y, o, (r.set x (r.get x + m)).set y 0, 3⟩ := by
  intro m hm
  induction m, hm using Nat.le_induction with
  | base =>
    intro fuel o r hr
    have h1 : Day23.instrStepE ⟨addWindow x y, o, r, 0⟩ =
        .ok ⟨addWindow x y, o, r.set x (r.get x + 1), 1⟩ := by
      simpa using Day23.instrStepE_inc ⟨addWindow x y, o, r, 0⟩ x hx rfl
    have h2 : Day23.instrStepE ⟨addWindow x y, o, r.set x (r.get x + 1), 1⟩ =
        .ok ⟨addWindow x y, o, (r.set x (r.get x + 1)).set y 0, 2⟩ := by
      have h := Day23.instrStepE_dec
        ⟨addWindow x y, o, r.set x (r.get x + 1), 1⟩ y hy rfl
      simpa [Regs.get_set_ne hx hy hxy, hr] using h
    have h3 : Day23.instrStepE
        ⟨addWindow x y, o, (r.set x (r.get x + 1)).set y 0, 2⟩ =
        .ok ⟨addWindow x y, o, (r.set x (r.get x + 1)).set y 0, 3⟩ := by
      have h := Day23.instrStepE_jnz_zero
        ⟨addWindow x y, o, (r.set x (r.get x + 1)).set y 0, 2⟩
        (regArg y) (litArg (-2)) rfl
        (by simp [resolveE, regArg, Regs.getE_valid hy,
              Regs.get_set_self hy])
      simpa using h
    calc Day23.plainLoopE (3 * 1 + fuel) ⟨addWindow x y, o, r, 0⟩
        = Day23.plainLoopE (fuel + 2)
            ⟨addWindow x y, o, r.set x (r.get x + 1), 1⟩ :=
          Day23.plainLoopE_shift _ _ _ _ (by ring) (by norm_num [addWindow]) h1
      _ = Day23.plainLoopE (fuel + 1)
            ⟨addWindow x y, o, (r.set x (r.get x + 1)).set y 0, 2⟩ :=
          Day23.plainLoopE_shift _ _ _ _ rfl (by norm_num [addWindow]) h2
      _ = Day23.plainLoopE fuel
            ⟨addWindow x y, o, (r.set x (r.get x + 1)).set y 0, 3⟩ :=
          Day23.plainLoopE_shift _ _ _ _ rfl (by norm_num [addWindow]) h3
  | succ m hm ih =>
    intro fuel o r hr
    have h1 : Day23.instrStepE ⟨addWindow x y, o, r, 0⟩ =
        .ok ⟨addWindow x y, o, r.set x (r.get x + 1), 1⟩ := by
      simpa using Day23.instrStepE_inc ⟨addWindow x y, o, r, 0⟩ x hx rfl
    have h2 : Day23.instrStepE ⟨addWindow x y, o, r.set x (r.get x + 1), 1⟩ =
        .ok ⟨addWindow x y, o, (r.set x (r.get x + 1)).set y m, 2⟩ := by
      have h := Day23.instrStepE_dec
        ⟨addWindow x y, o, r.set x (r.get x + 1), 1⟩ y hy rfl
      have hv : (r.set x (r.get x + 1)).get y - 1 = (m : Int) := by
        rw [Regs.get_set_ne hx hy hxy, hr]; push_cast; ring
      simpa [hv] using h
    have h3 : Day23.instrStepE
        ⟨addWindow x y, o, (r.set x (r.get x + 1)).set y m, 2⟩ =
        .ok ⟨addWindow x y, o, (r.set x (r.get x + 1)).set y m, 0⟩ := by
      have h := Day23.instrStepE_jnz_taken
        ⟨addWindow x y, o, (r.set x (r.get x + 1)).set y m, 2⟩
        (regArg y) (litArg (-2)) m (-2) rfl
        (by simp [resolveE, regArg, Regs.getE_valid hy,
              Regs.get_set_self hy])
        (by omega)
        (by simp [resolveE, litArg])
      simpa using h
    have step3 : Day23.plainLoopE (3 * (m + 1) + fuel) ⟨addWindow x y, o, r, 0⟩
        = Day23.plainLoopE (3 * m + fuel)
            ⟨addWindow x y, o, (r.set x (r.get x + 1)).set y m, 0⟩ := by
      calc Day23.plainLoopE (3 * (m + 1) + fuel) ⟨addWindow x y, o, r, 0⟩
          = Day23.plainLoopE (3 * m + fuel + 2)
              ⟨addWindow x y, o, r.set x (r.get x + 1), 1⟩ :=
            Day23.plainLoopE_shift _ _ _ _ (by ring) (by norm_num [addWindow]) h1
        _ = Day23.plainLoopE (3 * m + fuel + 1)
              ⟨addWindow x y, o, (r.set x (r.get x + 1)).set y m, 2⟩ :=
            Day23.plainLoopE_shift _ _ _ _ rfl (by norm_num [addWindow]) h2
        _ = Day23.plainLoopE (3 * m + fuel)
              ⟨addWindow x y, o, (r.set x (r.get x + 1)).set y m, 0⟩ :=
            Day23.plainLoopE_shift _ _ _ _ rfl (by norm_num [addWindow]) h3
    rw [step3, ih fuel o ((r.set x (r.get x + 1)).set y m)
        (by rw [Regs.get_set_self hy])]
    congr 1
    have hval : r.get x + 1 + (m : Int) = r.get x + ((m + 1 : Nat) : Int) := by
      push_cast; ring
    rw [Regs.get_set_ne hy hx (Ne.symm hxy), Regs.get_set_self hx,
      Regs.shuffleA hx hy hxy, hval]

theorem Regs.set_swap {x y : Int} (hx : ValidReg x) (hy : ValidReg y)
    (hxy : x ≠ y) (r : Regs) (v w : Int) :
    (r.set y v).set x w = (r.set x w).set y v := by
  rcases hx with rfl | rfl | rfl | rfl <;> rcases hy with rfl | rfl | rfl | rfl <;>
    first
      | exact absurd rfl hxy
      | simp [Regs.set]

theorem Day23.addWindowSwapped_loop (x y : Int) (hx : ValidReg x)
    (hy : ValidReg y) (hxy : x ≠ y) : ∀ m : Nat, 1 ≤ m →
    ∀ (fuel : Nat) (o : List OptEntry) (r : Regs), r.get y = (m : Int) →
    Day23.plainLoopE (3 * m + fuel) ⟨addWindowSwapped x y, o, r, 0⟩ =
      Day23.plainLoopE fuel
        ⟨addWindowSwapped x y, o, (r.set x (r.get x + m)).set y 0, 3⟩ := by
  intro m hm
  induction m, hm using Nat.le_induction with
  | base =>
    intro fuel o r hr
    have h1 : Day23.instrStepE ⟨addWindowSwapped x y, o, r, 0⟩ =
        .ok ⟨addWindowSwapped x y, o, r.set y 0, 1⟩ := by
      have h := Day23.instrStepE_dec ⟨addWindowSwapped x y, o, r, 0⟩ y hy rfl
      simpa [hr] using h
    have h2 : Day23.instrStepE ⟨addWindowSwapped x y, o, r.set y 0, 1⟩ =
        .ok ⟨addWindowSwapped x y, o, (r.set y 0).set x ((r.set y 0).get x + 1), 2⟩ := by
      simpa using Day23.instrStepE_inc ⟨addWindowSwapped x y, o, r.set y 0, 1⟩ x hx rfl
    have h3 : Day23.instrStepE
        ⟨addWindowSwapped x y, o, (r.set y 0).set x ((r.set y 0).get x + 1), 2⟩ =
        .ok ⟨addWindowSwapped x y, o, (r.set y 0).set x ((r.set y 0).get x + 1), 3⟩ := by
      have h := Day23.instrStepE_jnz_zero
        ⟨addWindowSwapped x y, o, (r.set y 0).set x ((r.set y 0).get x + 1), 2⟩
        (regArg y) (litArg (-2)) rfl
        (by simp [resolveE, regArg, Regs.getE_valid hy,
              Regs.get_set_ne hx hy hxy, Regs.get_set_self hy])
      simpa using h
    calc Day23.plainLoopE (3 * 1 + fuel) ⟨addWindowSwapped x y, o, r, 0⟩
        = Day23.plainLoopE (fuel + 2) ⟨addWindowSwapped x y, o, r.set y 0, 1⟩ :=
          Day23.plainLoopE_shift _ _ _ _ (by ring)
            (by norm_num [addWindowSwapped]) h1
      _ = Day23.plainLoopE (fuel + 1)
            ⟨addWindowSwapped x y, o, (r.set y 0).set x ((r.set y 0).get x + 1), 2⟩ :=
          Day23.plainLoopE_shift _ _ _ _ rfl (by norm_num [addWindowSwapped]) h2
      _ = Day23.plainLoopE fuel
            ⟨addWindowSwapped x y, o, (r.set y 0).set x ((r.set y 0).get x + 1), 3⟩ :=
          Day23.plainLoopE_shift _ _ _ _ rfl (by norm_num [addWindowSwapped]) h3
      _ = Day23.plainLoopE fuel
            ⟨addWindowSwapped x y, o, (r.set x (r.get x + 1)).set y 0, 3⟩ := by
          rw [Regs.get_set_ne hy hx (Ne.symm hxy), Regs.set_swap hx hy hxy]
  | succ m hm ih =>
    intro fuel o r hr
    have h1 : Day23.instrStepE ⟨addWindowSwapped x y, o, r, 0⟩ =
        .ok ⟨addWindowSwapped x y, o, r.set y m, 1⟩ := by
      have h := Day23.instrStepE_dec ⟨addWindowSwapped x y, o, r, 0⟩ y hy rfl
      have hv : r.get y - 1 = (m : Int) := by rw [hr]; push_cast; ring
      simpa [hv] using h
    have h2 : Day23.instrStepE ⟨addWindowSwapped x y, o, r.set y m, 1⟩ =
        .ok ⟨addWindowSwapped x y, o, (r.set y m).set x ((r.set y m).get x + 1), 2⟩ := by
      simpa using Day23.instrStepE_inc ⟨addWindowSwapped x y, o, r.set y m, 1⟩ x hx rfl
    have h3 : Day23.instrStepE
        ⟨addWindowSwapped x y, o, (r.set y m).set x ((r.set y m).get x + 1), 2⟩ =
        .ok ⟨addWindowSwapped x y, o, (r.set y m).set x ((r.set y m).get x + 1), 0⟩ := by
      have h := Day23.instrStepE_jnz_taken
        ⟨addWindowSwapped x y, o, (r.set y m).set x ((r.set y m).get x + 1), 2⟩
        (regArg y) (litArg (-2)) m (-2) rfl
        (by simp [resolveE, regArg, Regs.getE_valid hy,
              Regs.get_set_ne hx hy hxy, Regs.get_set_self hy])
        (by omega)
        (by simp [resolveE, litArg])
      simpa using h
    have step3 : Day23.plainLoopE (3 * (m + 1) + fuel)
        ⟨addWindowSwapped x y, o, r, 0⟩
        = Day23.plainLoopE (3 * m + fuel)
            ⟨addWindowSwapped x y, o, (r.set y m).set x ((r.set y m).get x + 1), 0⟩ := by
      calc Day23.plainLoopE (3 * (m + 1) + fuel) ⟨addWindowSwapped x y, o, r, 0⟩
          = Day23.plainLoopE (3 * m + fuel + 2)
              ⟨addWindowSwapped x y, o, r.set y m, 1⟩ :=
            Day23.plainLoopE_shift _ _ _ _ (by ring)
              (by norm_num [addWindowSwapped]) h1
        _ = Day23.plainLoopE (3 * m + fuel + 1)
              ⟨addWindowSwapped x y, o, (r.set y m).set x ((r.set y m).get x + 1), 2⟩ :=
            Day23.plainLoopE_shift _ _ _ _ rfl (by norm_num [addWindowSwapped]) h2
        _ = Day23.plainLoopE (3 * m + fuel)
              ⟨addWindowSwapped x y, o, (r.set y m).set x ((r.set y m).get x + 1), 0⟩ :=
            Day23.plainLoopE_shift _ _ _ _ rfl (by norm_num [addWindowSwapped]) h3
    rw [step3, ih fuel o ((r.set y m).set x ((r.set y m).get x + 1))
        (by rw [Regs.get_set_ne hx hy hxy, Regs.get_set_self hy])]
    congr 1
    have hval : r.get x + 1 + (m : Int) = r.get x + ((m + 1 : Nat) : Int) := by
      push_cast; ring
    rw [Regs.get_set_ne hy hx (Ne.symm hxy), Regs.get_set_self hx,
      Regs.set_set_self, Regs.shuffleB hx hy hxy, hval]

/-! ### Executing a MUL-idiom window instruction by instruction -/

theorem Day23.mulWindow_inner (a c d : Int) (src : Argument)
    (ha : ValidReg a) (hc : ValidReg c) (hac : a ≠ c) : ∀ m : Nat, 1 ≤ m →
    ∀ (fuel : Nat) (o : List OptEntry) (r : Regs), r.get c = (m : Int) →
    Day23.plainLoopE (3 * m + fuel) ⟨mulWindow a src c d, o, r, 1⟩ =
      Day23.plainLoopE fuel
        ⟨mulWindow a src c d, o, (r.set a (r.get a + m)).set c 0, 4⟩ := by
  intro m hm
  induction m, hm using Nat.le_induction with
  | base =>
    intro fuel o r hr
    have h1 : Day23.instrStepE ⟨mulWindow a src c d, o, r, 1⟩ =
        .ok ⟨mulWindow a src c d, o, r.set a (r.get a + 1), 2⟩ := by
      simpa using Day23.instrStepE_inc ⟨mulWindow a src c d, o, r, 1⟩ a ha rfl
    have h2 : Day23.instrStepE ⟨mulWindow a src c d, o, r.set a (r.get a + 1), 2⟩ =
        .ok ⟨mulWindow a src c d, o, (r.set a (r.get a + 1)).set c 0, 3⟩ := by
      have h := Day23.instrStepE_dec
        ⟨mulWindow a src c d, o, r.set a (r.get a + 1), 2⟩ c hc rfl
      simpa [Regs.get_set_ne ha hc hac, hr] using h
    have h3 : Day23.instrStepE
        ⟨mulWindow a src c d, o, (r.set a (r.get a + 1)).set c 0, 3⟩ =
        .ok ⟨mulWindow a src c d, o, (r.set a (r.get a + 1)).set c 0, 4⟩ := by
      have h := Day23.instrStepE_jnz_zero
        ⟨mulWindow a src c d, o, (r.set a (r.get a + 1)).set c 0, 3⟩
        (regArg c) (litArg (-2)) rfl
        (by simp [resolveE, regArg, Regs.getE_valid hc, Regs.get_set_self hc])
      simpa using h
    calc Day23.plainLoopE (3 * 1 + fuel) ⟨mulWindow a src c d, o, r, 1⟩
        = Day23.plainLoopE (fuel + 2)
            ⟨mulWindow a src c d, o, r.set a (r.get a + 1), 2⟩ :=
          Day23.plainLoopE_shift _ _ _ _ (by ring) (by norm_num [mulWindow]) h1
      _ = Day23.plainLoopE (fuel + 1)
            ⟨mulWindow a src c d, o, (r.set a (r.get a + 1)).set c 0, 3⟩ :=
          Day23.plainLoopE_shift _ _ _ _ rfl (by norm_num [mulWindow]) h2
      _ = Day23.plainLoopE fuel
            ⟨mulWindow a src c d, o, (r.set a (r.get a + 1)).set c 0, 4⟩ :=
          Day23.plainLoopE_shift _ _ _ _ rfl (by norm_num [mulWindow]) h3
  | succ m hm ih =>
    intro fuel o r hr
    have h1 : Day23.instrStepE ⟨mulWindow a src c d, o, r, 1⟩ =
        .ok ⟨mulWindow a src c d, o, r.set a (r.get a + 1), 2⟩ := by
      simpa using Day23.instrStepE_inc ⟨mulWindow a src c d, o, r, 1⟩ a ha rfl
    have h2 : Day23.instrStepE ⟨mulWindow a src c d, o, r.set a (r.get a + 1), 2⟩ =
        .ok ⟨mulWindow a src c d, o, (r.set a (r.get a + 1)).set c m, 3⟩ := by
      have h := Day23.instrStepE_dec
        ⟨mulWindow a src c d, o, r.set a (r.get a + 1), 2⟩ c hc rfl
      have hv : (r.set a (r.get a + 1)).get c - 1 = (m : Int) := by
        rw [Regs.get_set_ne ha hc hac, hr]; push_cast; ring
      simpa [hv] using h
    have h3 : Day23.instrStepE
        ⟨mulWindow a src c d, o, (r.set a (r.get a + 1)).set c m, 3⟩ =
        .ok ⟨mulWindow a src c d, o, (r.set a (r.get a + 1)).set c m, 1⟩ := by
      have h := Day23.instrStepE_jnz_taken
        ⟨mulWindow a src c d, o, (r.set a (r.get a + 1)).set c m, 3⟩
        (regArg c) (litArg (-2)) m (-2) rfl
        (by simp [resolveE, regArg, Regs.getE_valid hc, Regs.get_set_self hc])
        (by omega)
        (by simp [resolveE, litArg])
      simpa using h
    have step3 : Day23.plainLoopE (3 * (m + 1) + fuel) ⟨mulWindow a src c d, o, r, 1⟩
        = Day23.plainLoopE (3 * m + fuel)
            ⟨mulWindow a src c d, o, (r.set a (r.get a + 1)).set c m, 1⟩ := by
      calc Day23.plainLoopE (3 * (m + 1) + fuel) ⟨mulWindow a src c d, o, r, 1⟩
          = Day23.plainLoopE (3 * m + fuel + 2)
              ⟨mulWindow a src c d, o, r.set a (r.get a + 1), 2⟩ :=
            Day23.plainLoopE_shift _ _ _ _ (by ring) (by norm_num [mulWindow]) h1
        _ = Day23.plainLoopE (3 * m + fuel + 1)
              ⟨mulWindow a src c d, o, (r.set a (r.get a + 1)).set c m, 3⟩ :=
            Day23.plainLoopE_shift _ _ _ _ rfl (by norm_num [mulWindow]) h2
        _ = Day23.plainLoopE (3 * m + fuel)
              ⟨mulWindow a src c d, o, (r.set a (r.get a + 1)).set c m, 1⟩ :=
            Day23.plainLoopE_shift _ _ _ _ rfl (by norm_num [mulWindow]) h3
    rw [step3, ih fuel o ((r.set a (r.get a + 1)).set c m)
        (by rw [Regs.get_set_self hc])]
    congr 1
    have hval : r.get a + 1 + (m : Int) = r.get a + ((m + 1 : Nat) : Int) := by
      push_cast; ring
    rw [Regs.get_set_ne hc ha (Ne.symm hac), Regs.get_set_self ha,
      Regs.shuffleA ha hc hac, hval]

theorem resolveT_set_ne (r : Regs) (src : Argument) (i v : Int)
    (hi : ValidReg i)
    (h : src.is_reg = true → ValidReg src.val ∧ src.val ≠ i) :
    resolveT (r.set i v) src = resolveT r src := by
  cases hsr : src.is_reg with
  | false => simp [resolveT, hsr]
  | true =>
    obtain ⟨hv, hne⟩ := h hsr
    simp [resolveT, hsr, Regs.get_set_ne hi hv (Ne.symm hne)]

theorem Day23.mulWindow_outer (a c d : Int) (src : Argument)
    (ha : ValidReg a) (hc : ValidReg c) (hd : ValidReg d)
    (hac : a ≠ c) (had : a ≠ d) (hcd : c ≠ d)
    (hsrc : src.is_reg = true →
      ValidReg src.val ∧ src.val ≠ a ∧ src.val ≠ c ∧ src.val ≠ d)
    (m : Nat) (hm : 1 ≤ m) : ∀ k : Nat, 1 ≤ k →
    ∀ (fuel : Nat) (o : List OptEntry) (r : Regs),
    r.get d = (k : Int) → resolveT r src = (m : Int) →
    Day23.plainLoopE ((3 * m + 3) * k + fuel) ⟨mulWindow a src c d, o, r, 0⟩ =
      Day23.plainLoopE fuel ⟨mulWindow a src c d, o,
        ((r.set a (r.get a + m * k)).set c 0).set d 0, 6⟩ := by
  intro k hk
  induction k, hk using Nat.le_induction with
  | base =>
    intro fuel o r hrd hres
    have h1 : Day23.instrStepE ⟨mulWindow a src c d, o, r, 0⟩ =
        .ok ⟨mulWindow a src c d, o, r.set c m, 1⟩ := by
      have hv : resolveE r src = .ok (m : Int) := by
        rw [resolveE_valid (fun h => (hsrc h).1), hres]
      simpa using Day23.instrStepE_cpy ⟨mulWindow a src c d, o, r, 0⟩
        src c (m : Int) hc rfl hv
    have h4 : Day23.instrStepE ⟨mulWindow a src c d, o,
        ((r.set c m).set a ((r.set c m).get a + m)).set c 0, 4⟩ =
        .ok ⟨mulWindow a src c d, o,
          (((r.set c m).set a ((r.set c m).get a + m)).set c 0).set d 0, 5⟩ := by
      have h := Day23.instrStepE_dec ⟨mulWindow a src c d, o,
        ((r.set c m).set a ((r.set c m).get a + m)).set c 0, 4⟩ d hd rfl
      have hv : (((r.set c m).set a ((r.set c m).get a + m)).set c 0).get d - 1 = 0 := by
        rw [Regs.get_set_ne hc hd hcd, Regs.get_set_ne ha hd had,
          Regs.get_set_ne hc hd hcd, hrd]
        norm_num
      simpa [hv] using h
    have h5 : Day23.instrStepE ⟨mulWindow a src c d, o,
        (((r.set c m).set a ((r.set c m).get a + m)).set c 0).set d 0, 5⟩ =
        .ok ⟨mulWindow a src c d, o,
          (((r.set c m).set a ((r.set c m).get a + m)).set c 0).set d 0, 6⟩ := by
      have h := Day23.instrStepE_jnz_zero ⟨mulWindow a src c d, o,
        (((r.set c m).set a ((r.set c m).get a + m)).set c 0).set d 0, 5⟩
        (regArg d) (litArg (-5)) rfl
        (by simp [resolveE, regArg, Regs.getE_valid hd, Regs.get_set_self hd])
      simpa using h
    calc Day23.plainLoopE ((3 * m + 3) * 1 + fuel) ⟨mulWindow a src c d, o, r, 0⟩
        = Day23.plainLoopE (3 * m + (fuel + 2))
            ⟨mulWindow a src c d, o, r.set c m, 1⟩ :=
          Day23.plainLoopE_shift _ _ _ _ (by ring) (by norm_num [mulWindow]) h1
      _ = Day23.plainLoopE (fuel + 2) ⟨mulWindow a src c d, o,
            ((r.set c m).set a ((r.set c m).get a + m)).set c 0, 4⟩ :=
          Day23.mulWindow_inner a c d src ha hc hac m hm (fuel + 2) o
            (r.set c m) (by rw [Regs.get_set_self hc])
      _ = Day23.plainLoopE (fuel + 1) ⟨mulWindow a src c d, o,
            (((r.set c m).set a ((r.set c m).get a + m)).set c 0).set d 0, 5⟩ :=
          Day23.plainLoopE_shift _ _ _ _ rfl (by norm_num [mulWindow]) h4
      _ = Day23.plainLoopE fuel ⟨mulWindow a src c d, o,
            (((r.set c m).set a ((r.set c m).get a + m)).set c 0).set d 0, 6⟩ :=
          Day23.plainLoopE_shift _ _ _ _ rfl (by norm_num [mulWindow]) h5
      _ = Day23.plainLoopE fuel ⟨mulWindow a src c d, o,
            ((r.set a (r.get a + m * 1)).set c 0).set d 0, 6⟩ := by
          have hval : (r.set c (m : Int)).get a + (m : Int) =
              r.get a + (m : Int) * 1 := by
            rw [Regs.get_set_ne hc ha (Ne.symm hac)]; ring
          rw [hval, Regs.shuffleB ha hc hac]
  | succ k hk ih =>
    intro fuel o r hrd hres
    have h1 : Day23.instrStepE ⟨mulWindow a src c d, o, r, 0⟩ =
        .ok ⟨mulWindow a src c d, o, r.set c m, 1⟩ := by
      have hv : resolveE r src = .ok (m : Int) := by
        rw [resolveE_valid (fun h => (hsrc h).1), hres]
      simpa using Day23.instrStepE_cpy ⟨mulWindow a src c d, o, r, 0⟩
        src c (m : Int) hc rfl hv
    have h4 : Day23.instrStepE ⟨mulWindow a src c d, o,
        ((r.set c m).set a ((r.set c m).get a + m)).set c 0, 4⟩ =
        .ok ⟨mulWindow a src c d, o,
          (((r.set c m).set a ((r.set c m).get a + m)).set c 0).set d k, 5⟩ := by
      have h := Day23.instrStepE_dec ⟨mulWindow a src c d, o,
        ((r.set c m).set a ((r.set c m).get a + m)).set c 0, 4⟩ d hd rfl
      have hv : (((r.set c m).set a ((r.set c m).get a + m)).set c 0).get d - 1 =
          (k : Int) := by
        rw [Regs.get_set_ne hc hd hcd, Regs.get_set_ne ha hd had,
          Regs.get_set_ne hc hd hcd, hrd]
        push_cast; ring
      simpa [hv] using h
    have h5 : Day23.instrStepE ⟨mulWindow a src c d, o,
        (((r.set c m).set a ((r.set c m).get a + m)).set c 0).set d k, 5⟩ =
        .ok ⟨mulWindow a src c d, o,
          (((r.set c m).set a ((r.set c m).get a + m)).set c 0).set d k, 0⟩ := by
      have h := Day23.instrStepE_jnz_taken ⟨mulWindow a src c d, o,
        (((r.set c m).set a ((r.set c m).get a + m)).set c 0).set d k, 5⟩
        (regArg d) (litArg (-5)) k (-5) rfl
        (by simp [resolveE, regArg, Regs.getE_valid hd, Regs.get_set_self hd])
        (by omega)
        (by simp [resolveE, litArg])
      simpa using h
    have hR3 : (((r.set c (m : Int)).set a ((r.set c (m : Int)).get a + m)).set c 0).set d k =
        (((r.set a (r.get a + m)).set c 0).set d k : Regs) := by
      rw [Regs.get_set_ne hc ha (Ne.symm hac), Regs.shuffleB ha hc hac]
    have hres3 : resolveT (((r.set a (r.get a + m)).set c 0).set d (k : Int)) src =
        (m : Int) := by
      rw [resolveT_set_ne _ _ _ _ hd (fun h => ⟨(hsrc h).1, (hsrc h).2.2.2⟩),
        resolveT_set_ne _ _ _ _ hc (fun h => ⟨(hsrc h).1, (hsrc h).2.2.1⟩),
        resolveT_set_ne _ _ _ _ ha (fun h => ⟨(hsrc h).1, (hsrc h).2.1⟩), hres]
    calc Day23.plainLoopE ((3 * m + 3) * (k + 1) + fuel)
          ⟨mulWindow a src c d, o, r, 0⟩
        = Day23.plainLoopE (3 * m + ((3 * m + 3) * k + fuel + 2))
            ⟨mulWindow a src c d, o, r.set c m, 1⟩ :=
          Day23.plainLoopE_shift _ _ _ _ (by ring) (by norm_num [mulWindow]) h1
      _ = Day23.plainLoopE ((3 * m + 3) * k + fuel + 2) ⟨mulWindow a src c d, o,
            ((r.set c m).set a ((r.set c m).get a + m)).set c 0, 4⟩ :=
          Day23.mulWindow_inner a c d src ha hc hac m hm _ o
            (r.set c m) (by rw [Regs.get_set_self hc])
      _ = Day23.plainLoopE ((3 * m + 3) * k + fuel + 1) ⟨mulWindow a src c d, o,
            (((r.set c m).set a ((r.set c m).get a + m)).set c 0).set d k, 5⟩ :=
          Day23.plainLoopE_shift _ _ _ _ rfl (by norm_num [mulWindow]) h4
      _ = Day23.plainLoopE ((3 * m + 3) * k + fuel) ⟨mulWindow a src c d, o,
            (((r.set c m).set a ((r.set c m).get a + m)).set c 0).set d k, 0⟩ :=
          Day23.plainLoopE_shift _ _ _ _ rfl (by norm_num [mulWindow]) h5
      _ = Day23.plainLoopE ((3 * m + 3) * k + fuel) ⟨mulWindow a src c d, o,
            ((r.set a (r.get a + m)).set c 0).set d k, 0⟩ := by rw [hR3]
      _ = Day23.plainLoopE fuel ⟨mulWindow a src c d, o,
            (((((r.set a (r.get a + m)).set c 0).set d k).set a
              ((((r.set a (r.get a + m)).set c 0).set d k).get a + m * k)).set c 0).set d 0,
            6⟩ :=
          ih fuel o (((r.set a (r.get a + m)).set c 0).set d k)
            (by rw [Regs.get_set_self hd]) hres3
      _ = Day23.plainLoopE fuel ⟨mulWindow a src c d, o,
            ((r.set a (r.get a + m * (k + 1))).set c 0).set d 0, 6⟩ := by
          have hga : ((((r.set a (r.get a + m)).set c 0).set d (k : Int)).get a) =
              r.get a + (m : Int) := by
            rw [Regs.get_set_ne hd ha (Ne.symm had),
              Regs.get_set_ne hc ha (Ne.symm hac), Regs.get_set_self ha]
          have hval : r.get a + (m : Int) + (m : Int) * k =
              r.get a + (m : Int) * ((k : Int) + 1) := by ring
          rw [hga, Regs.shuffleC ha hc hd hac had hcd, hval]

/-! ### Claim C1 (code bug): halting on a negative program counter -/

/-- Claim C1: the spec states that the run loop is running exactly while
`0 ≤ pc < len` and that a step which makes `pc` negative halts the machine.
The code's loop condition is only `pc < len`, so a negative `pc` keeps the
loop running, the fetch `self.instructions[self.pc]` wraps around CPython
style and executes an instruction from the end of the program (second and
third conjuncts: from `pc = -1` the loop is not finished and the step
executes the final `inc a`), and when the wrapped index is still negative
the fetch raises `IndexError` (first conjunct: the one-instruction program
`jnz 1 -2` crashes the whole run). -/
theorem C1_negative_pc_keeps_running :
    Day23.run progJnzFarNeg 0 10 = .error .indexError ∧
    Day23.runLoopE 1 ⟨progJnzWrap, [], ⟨0, 0, 0, 0⟩, -1⟩ = .ok none ∧
    Day23.stepE ⟨progJnzWrap, [], ⟨0, 0, 0, 0⟩, -1⟩ =
      .ok ⟨progJnzWrap, [], ⟨1, 0, 0, 0⟩, 0⟩ := by
  refine ⟨by decide, by decide, by decide⟩

/-! ### Claim C2, counterexample -/

/-- Claim C2 counterexample: the window `cpy d c; inc a; dec c; jnz c -2;
dec d; jnz d -5` structurally matches the MUL idiom (the scanner caches it),
yet from registers `(0,0,0,2)` the instruction-by-instruction execution
leaves the window after finitely many steps with `a = 3` while the fused
update produces `a = 4`: the claimed equivalence for arbitrary starting
register values fails when the source operand aliases the outer counter. -/
theorem C2_mul_alias_counterexample :
    find_optimizations progMulAlias 0 = .ok [(0, 6, .MUL 0 (regArg 3) 3 2)] ∧
    Day23.plainLoopE 30 ⟨progMulAlias, [], ⟨0, 0, 0, 2⟩, 0⟩ =
      .ok (some ⟨progMulAlias, [], ⟨3, 0, 0, 0⟩, 6⟩) ∧
    Day23.applyFusedE 6 (.MUL 0 (regArg 3) 3 2) ⟨progMulAlias, [], ⟨0, 0, 0, 2⟩, 0⟩ =
      .ok ⟨progMulAlias, [], ⟨4, 0, 0, 0⟩, 6⟩ ∧
    (⟨3, 0, 0, 0⟩ : Regs) ≠ ⟨4, 0, 0, 0⟩ := by
  refine ⟨by decide, by decide, by decide, by decide⟩

/-- Claim C2 (amended): for ADD-idiom and MUL-idiom windows whose matched
loop operands are genuine, pairwise distinct registers (with a MUL source
operand that is a literal or a register disjoint from the loop registers),
and whose counters start positive (ADD: `y = m ≥ 1`; MUL: resolved source
`m ≥ 1` and outer counter `d = k ≥ 1`), executing the window instruction by
instruction from its first offset until `pc` leaves the window produces
exactly the state of the fused update with `pc` advanced by the span; the
scanner recognizes each such window as the corresponding cached entry.  (The
unrestricted claim over arbitrary starting register values is refuted by
`C2_mul_alias_counterexample`: an aliased source operand, or a zero or
negative counter, separates the two executions.) -/
theorem C2_idiom_fusion_equivalence :
    (∀ (x y : Int) (o : List OptEntry) (r : Regs) (m : Nat),
      ValidReg x → ValidReg y → x ≠ y → 1 ≤ m → r.get y = (m : Int) →
      find_optimizations (addWindow x y) 0 = .ok [(0, 3, .ADD x y)] ∧
      Day23.applyFusedE 3 (.ADD x y) ⟨addWindow x y, o, r, 0⟩ =
        .ok ⟨addWindow x y, o, (r.set x (r.get x + m)).set y 0, 3⟩ ∧
      Day23.plainLoopE (3 * m + 1) ⟨addWindow x y, o, r, 0⟩ =
        .ok (some ⟨addWindow x y, o, (r.set x (r.get x + m)).set y 0, 3⟩)) ∧
    (∀ (x y : Int) (o : List OptEntry) (r : Regs) (m : Nat),
      ValidReg x → ValidReg y → x ≠ y → 1 ≤ m → r.get y = (m : Int) →
      find_optimizations (addWindowSwapped x y) 0 = .ok [(0, 3, .ADD x y)] ∧
      Day23.applyFusedE 3 (.ADD x y) ⟨addWindowSwapped x y, o, r, 0⟩ =
        .ok ⟨addWindowSwapped x y, o, (r.set x (r.get x + m)).set y 0, 3⟩ ∧
      Day23.plainLoopE (3 * m + 1) ⟨addWindowSwapped x y, o, r, 0⟩ =
        .ok (some ⟨addWindowSwapped x y, o, (r.set x (r.get x + m)).set y 0, 3⟩)) ∧
    (∀ (a c d : Int) (src : Argument) (o : List OptEntry) (r : Regs) (m k : Nat),
      ValidReg a → ValidReg c → ValidReg d → a ≠ c → a ≠ d → c ≠ d →
      (src.is_reg = true →
        ValidReg src.val ∧ src.val ≠ a ∧ src.val ≠ c ∧ src.val ≠ d) →
      1 ≤ m → 1 ≤ k → r.get d = (k : Int) → resolveT r src = (m : Int) →
      find_optimizations (mulWindow a src c d) 0 = .ok [(0, 6, .MUL a src d c)] ∧
      Day23.applyFusedE 6 (.MUL a src d c) ⟨mulWindow a src c d, o, r, 0⟩ =
        .ok ⟨mulWindow a src c d, o,
          ((r.set a (r.get a + m * k)).set c 0).set d 0, 6⟩ ∧
      Day23.plainLoopE ((3 * m + 3) * k + 1) ⟨mulWindow a src c d, o, r, 0⟩ =
        .ok (some ⟨mulWindow a src c d, o,
          ((r.set a (r.get a + m * k)).set c 0).set d 0, 6⟩)) := by
  refine ⟨?_, ?_, ?_⟩
  · intro x y o r m hx hy hxy hm hr
    refine ⟨?_, ?_, ?_⟩
    · simp [find_optimizations, matchAddE, pyNth, regArg, litArg]
    · simp [Day23.applyFusedE, Regs.getE_valid hx, Regs.getE_valid hy,
        Regs.setE_valid hx, Regs.setE_valid hy, hr]
    · rw [Day23.addWindow_loop x y hx hy hxy m hm 1 o r hr]
      simp [Day23.plainLoopE, addWindow]
  · intro x y o r m hx hy hxy hm hr
    refine ⟨?_, ?_, ?_⟩
    · simp [find_optimizations, matchAddE, pyNth, regArg, litArg]
    · simp [Day23.applyFusedE, Regs.getE_valid hx, Regs.getE_valid hy,
        Regs.setE_valid hx, Regs.setE_valid hy, hr]
    · rw [Day23.addWindowSwapped_loop x y hx hy hxy m hm 1 o r hr]
      simp [Day23.plainLoopE, addWindowSwapped]
  · intro a c d src o r m k ha hc hd hac had hcd hsrc hm hk hrd hres
    refine ⟨?_, ?_, ?_⟩
    · simp [find_optimizations, matchMulE, pyNth, regArg, litArg, mulWindow]
    · simp [Day23.applyFusedE, resolveE_valid (fun h => (hsrc h).1), hres,
        Regs.getE_valid ha, Regs.getE_valid hd, Regs.setE_valid ha,
        Regs.setE_valid hc, Regs.setE_valid hd, hrd, mul_comm]
    · rw [Day23.mulWindow_outer a c d src ha hc hd hac had hcd hsrc m hm
        k hk 1 o r hrd hres]
      simp [Day23.plainLoopE, mulWindow]

/-- Witness for `C2_idiom_fusion_equivalence`: all three parts applied at
concrete windows and registers (registers `a`/`b` for the ADD forms with
`b = 2`; registers `a`, `c`, `d` and the literal source 2 for the MUL form
with `d = 3`). -/
theorem C2_idiom_fusion_equivalence_witness :
    (find_optimizations (addWindow 0 1) 0 = .ok [(0, 3, .ADD 0 1)] ∧
      Day23.applyFusedE 3 (.ADD 0 1) ⟨addWindow 0 1, [], ⟨7, 2, 0, 0⟩, 0⟩ =
        .ok ⟨addWindow 0 1, [],
          ((⟨7, 2, 0, 0⟩ : Regs).set 0 ((⟨7, 2, 0, 0⟩ : Regs).get 0 + 2)).set 1 0, 3⟩ ∧
      Day23.plainLoopE (3 * 2 + 1) ⟨addWindow 0 1, [], ⟨7, 2, 0, 0⟩, 0⟩ =
        .ok (some ⟨addWindow 0 1, [],
          ((⟨7, 2, 0, 0⟩ : Regs).set 0 ((⟨7, 2, 0, 0⟩ : Regs).get 0 + 2)).set 1 0, 3⟩)) ∧
    (find_optimizations (addWindowSwapped 0 1) 0 = .ok [(0, 3, .ADD 0 1)] ∧
      Day23.applyFusedE 3 (.ADD 0 1) ⟨addWindowSwapped 0 1, [], ⟨7, 2, 0, 0⟩, 0⟩ =
        .ok ⟨addWindowSwapped 0 1, [],
          ((⟨7, 2, 0, 0⟩ : Regs).set 0 ((⟨7, 2, 0, 0⟩ : Regs).get 0 + 2)).set 1 0, 3⟩ ∧
      Day23.plainLoopE (3 * 2 + 1) ⟨addWindowSwapped 0 1, [], ⟨7, 2, 0, 0⟩, 0⟩ =
        .ok (some ⟨addWindowSwapped 0 1, [],
          ((⟨7, 2, 0, 0⟩ : Regs).set 0 ((⟨7, 2, 0, 0⟩ : Regs).get 0 + 2)).set 1 0, 3⟩)) ∧
    (find_optimizations (mulWindow 0 (litArg 2) 2 3) 0 =
        .ok [(0, 6, .MUL 0 (litArg 2) 3 2)] ∧
      Day23.applyFusedE 6 (.MUL 0 (litArg 2) 3 2)
          ⟨mulWindow 0 (litArg 2) 2 3, [], ⟨1, 0, 0, 3⟩, 0⟩ =
        .ok ⟨mulWindow 0 (litArg 2) 2 3, [],
          (((⟨1, 0, 0, 3⟩ : Regs).set 0 ((⟨1, 0, 0, 3⟩ : Regs).get 0 + 2 * 3)).set 2 0).set 3 0, 6⟩ ∧
      Day23.plainLoopE ((3 * 2 + 3) * 3 + 1)
          ⟨mulWindow 0 (litArg 2) 2 3, [], ⟨1, 0, 0, 3⟩, 0⟩ =
        .ok (some ⟨mulWindow 0 (litArg 2) 2 3, [],
          (((⟨1, 0, 0, 3⟩ : Regs).set 0 ((⟨1, 0, 0, 3⟩ : Regs).get 0 + 2 * 3)).set 2 0).set 3 0, 6⟩)) := by
  refine ⟨?_, ?_, ?_⟩
  · exact C2_idiom_fusion_equivalence.1 0 1 [] ⟨7, 2, 0, 0⟩ 2 (by decide)
      (by decide) (by decide) (by decide) (by decide)
  · exact C2_idiom_fusion_equivalence.2.1 0 1 [] ⟨7, 2, 0, 0⟩ 2 (by decide)
      (by decide) (by decide) (by decide) (by decide)
  · exact C2_idiom_fusion_equivalence.2.2 0 2 3 (litArg 2) [] ⟨1, 0, 0, 3⟩ 2 3
      (by decide) (by decide) (by decide) (by decide) (by decide) (by decide)
      (by decide) (by decide) (by decide) (by decide) (by decide)

/-! ### Totality helpers: subscripts and matchers never fail on
well-formed programs -/

theorem pyNth_ok {α : Type} (l : List α) (k : Nat) (hk : k < l.length) :
    ∃ x, pyNth l k = .ok x ∧ x ∈ l := by
  unfold pyNth
  cases h2 : l.get? k with
  | none =>
    rw [List.get?_eq_none] at h2
    omega
  | some x => exact ⟨x, rfl, List.get?_mem h2⟩

theorem pyIdx_ok {α : Type} (l : List α) (i : Int) (h0 : 0 ≤ i)
    (hn : i < (l.length : Int)) : ∃ x, pyIdx l i = .ok x ∧ x ∈ l := by
  simp only [pyIdx]
  have hneg : ¬ i < 0 := by omega
  rw [if_neg hneg, if_pos h0]
  cases h2 : l.get? i.toNat with
  | none =>
    rw [List.get?_eq_none] at h2
    omega
  | some x => exact ⟨x, rfl, List.get?_mem h2⟩

theorem resolveE_ok (r : Regs) (arg : Argument)
    (h : arg.is_reg = true → ValidReg arg.val) :
    ∃ v, resolveE r arg = .ok v := by
  exact ⟨resolveT r arg, resolveE_valid h r⟩

theorem matchAddE_total (p0 p1 p2 : Instruction)
    (h0 : InstrWF p0) (h1 : InstrWF p1) (h2 : InstrWF p2) :
    ∃ o, matchAddE p0 p1 p2 = .ok o := by
  unfold matchAddE
  by_cases hj : p2.op = .JNZ
  case neg => rw [if_neg hj]; exact ⟨none, rfl⟩
  rw [if_pos hj]
  obtain ⟨a21, ha21, -⟩ := pyNth_ok p2.args 1 (by rw [h2.1, hj]; decide)
  simp only [ha21]
  by_cases hc1 : a21.is_reg = false ∧ a21.val = -2
  case neg => rw [if_neg hc1]; exact ⟨none, rfl⟩
  rw [if_pos hc1]
  by_cases hid : p0.op = .INC ∧ p1.op = .DEC
  · rw [if_pos hid]
    obtain ⟨a20, ha20, -⟩ := pyNth_ok p2.args 0 (by rw [h2.1, hj]; decide)
    simp only [ha20]
    obtain ⟨a10, ha10, -⟩ := pyNth_ok p1.args 0 (by rw [h1.1, hid.2]; decide)
    simp only [ha10]
    by_cases hval : a20.val = a10.val
    · rw [if_pos hval]
      obtain ⟨a00, ha00, -⟩ := pyNth_ok p0.args 0 (by rw [h0.1, hid.1]; decide)
      simp only [ha00]
      exact ⟨_, rfl⟩
    · rw [if_neg hval]; exact ⟨none, rfl⟩
  · rw [if_neg hid]
    by_cases hdi : p0.op = .DEC ∧ p1.op = .INC
    · rw [if_pos hdi]
      obtain ⟨a20, ha20, -⟩ := pyNth_ok p2.args 0 (by rw [h2.1, hj]; decide)
      simp only [ha20]
      obtain ⟨a00, ha00, -⟩ := pyNth_ok p0.args 0 (by rw [h0.1, hdi.1]; decide)
      simp only [ha00]
      by_cases hval : a20.val = a00.val
      · rw [if_pos hval]
        obtain ⟨a10, ha10, -⟩ := pyNth_ok p1.args 0 (by rw [h1.1, hdi.2]; decide)
        simp only [ha10]
        exact ⟨_, rfl⟩
      · rw [if_neg hval]; exact ⟨none, rfl⟩
    · rw [if_neg hdi]; exact ⟨none, rfl⟩

theorem matchMulE_total (p0 p1 p2 p3 p4 p5 : Instruction)
    (h0 : InstrWF p0) (h1 : InstrWF p1) (h2 : InstrWF p2)
    (h3 : InstrWF p3) (h4 : InstrWF p4) (h5 : InstrWF p5) :
    ∃ o, matchMulE p0 p1 p2 p3 p4 p5 = .ok o := by
  unfold matchMulE
  by_cases hops : p0.op = .CPY ∧ p1.op = .INC ∧ p2.op = .DEC ∧
      p3.op = .JNZ ∧ p4.op = .DEC ∧ p5.op = .JNZ
  case neg => rw [if_neg hops]; exact ⟨none, rfl⟩
  rw [if_pos hops]
  obtain ⟨a31, ha31, -⟩ := pyNth_ok p3.args 1
    (by rw [h3.1, hops.2.2.2.1]; decide)
  simp only [ha31]
  by_cases hc1 : a31.is_reg = false ∧ a31.val = -2
  case neg => rw [if_neg hc1]; exact ⟨none, rfl⟩
  rw [if_pos hc1]
  obtain ⟨a51, ha51, -⟩ := pyNth_ok p5.args 1
    (by rw [h5.1, hops.2.2.2.2.2]; decide)
  simp only [ha51]
  by_cases hc2 : a51.is_reg = false ∧ a51.val = -5
  case neg => rw [if_neg hc2]; exact ⟨none, rfl⟩
  rw [if_pos hc2]
  obtain ⟨a01, ha01, -⟩ := pyNth_ok p0.args 1 (by rw [h0.1, hops.1]; decide)
  simp only [ha01]
  obtain ⟨a10, ha10, -⟩ := pyNth_ok p1.args 0 (by rw [h1.1, hops.2.1]; decide)
  simp only [ha10]
  obtain ⟨a00, ha00, -⟩ := pyNth_ok p0.args 0 (by rw [h0.1, hops.1]; decide)
  simp only [ha00]
  obtain ⟨a40, ha40, -⟩ := pyNth_ok p4.args 0
    (by rw [h4.1, hops.2.2.2.2.1]; decide)
  simp only [ha40]
  obtain ⟨a20, ha20, -⟩ := pyNth_ok p2.args 0 (by rw [h2.1, hops.2.2.1]; decide)
  simp only [ha20]
  obtain ⟨a30, ha30, -⟩ := pyNth_ok p3.args 0
    (by rw [h3.1, hops.2.2.2.1]; decide)
  simp only [ha30]
  obtain ⟨a50, ha50, -⟩ := pyNth_ok p5.args 0
    (by rw [h5.1, hops.2.2.2.2.2]; decide)
  simp only [ha50]
  split
  · exact ⟨_, rfl⟩
  · exact ⟨none, rfl⟩

theorem find_optimizations_total (bound : Nat) :
    ∀ (l : List Instruction) (i : Nat), ProgWF l → l.length ≤ bound →
    ∃ m, find_optimizations l i = .ok m := by
  induction bound with
  | zero =>
    intro l i _ hlen
    rcases l with _ | ⟨p0, l⟩
    · exact ⟨[], rfl⟩
    · simp at hlen
  | succ b ih =>
    intro l i hwf hlen
    rcases l with _ | ⟨p0, _ | ⟨p1, _ | ⟨p2, rest⟩⟩⟩
    · exact ⟨[], rfl⟩
    · exact ⟨[], rfl⟩
    · exact ⟨[], rfl⟩
    rcases rest with _ | ⟨p3, _ | ⟨p4, _ | ⟨p5, rest2⟩⟩⟩
    · rw [find_optimizations]
      pick_goal 2
      · intros; simp_all
      obtain ⟨o, ho⟩ := matchAddE_total p0 p1 p2 (hwf p0 (by simp))
        (hwf p1 (by simp)) (hwf p2 (by simp))
      rw [ho]
      cases o with
      | none =>
        exact ih [p1, p2] (i + 1) (fun p hp => hwf p (by simp at hp ⊢; tauto))
          (by simp at hlen ⊢; omega)
      | some f => exact ⟨[(i, 3, f)], rfl⟩
    · rw [find_optimizations]
      pick_goal 2
      · intros; simp_all
      obtain ⟨o, ho⟩ := matchAddE_total p0 p1 p2 (hwf p0 (by simp))
        (hwf p1 (by simp)) (hwf p2 (by simp))
      rw [ho]
      cases o with
      | none =>
        exact ih [p1, p2, p3] (i + 1) (fun p hp => hwf p (by simp at hp ⊢; tauto))
          (by simp at hlen ⊢; omega)
      | some f => exact ⟨[(i, 3, f)], rfl⟩
    · rw [find_optimizations]
      pick_goal 2
      · intros; simp_all
      obtain ⟨o, ho⟩ := matchAddE_total p0 p1 p2 (hwf p0 (by simp))
        (hwf p1 (by simp)) (hwf p2 (by simp))
      rw [ho]
      cases o with
      | none =>
        exact ih [p1, p2, p3, p4] (i + 1) (fun p hp => hwf p (by simp at hp ⊢; tauto))
          (by simp at hlen ⊢; omega)
      | some f => exact ⟨[(i, 3, f)], rfl⟩
    · rw [find_optimizations]
      obtain ⟨oM, hoM⟩ := matchMulE_total p0 p1 p2 p3 p4 p5 (hwf p0 (by simp))
        (hwf p1 (by simp)) (hwf p2 (by simp)) (hwf p3 (by simp))
        (hwf p4 (by simp)) (hwf p5 (by simp))
      rw [hoM]
      cases oM with
      | some f =>
        obtain ⟨mm, hmm⟩ := ih rest2 (i + 6)
          (fun p hp => hwf p (by simp [hp])) (by simp at hlen ⊢; omega)
        rw [hmm]
        exact ⟨_, rfl⟩
      | none =>
        obtain ⟨oA, hoA⟩ := matchAddE_total p0 p1 p2 (hwf p0 (by simp))
          (hwf p1 (by simp)) (hwf p2 (by simp))
        rw [hoA]
        cases oA with
        | some f =>
          obtain ⟨mm, hmm⟩ := ih (p3 :: p4 :: p5 :: rest2) (i + 3)
            (fun p hp => hwf p (by simp at hp ⊢; tauto))
            (by simp at hlen ⊢; omega)
          rw [hmm]
          exact ⟨_, rfl⟩
        | none =>
          exact ih (p1 :: p2 :: p3 :: p4 :: p5 :: rest2) (i + 1)
            (fun p hp => hwf p (by simp at hp ⊢; tauto))
            (by simp at hlen ⊢; omega)

/-! ### Claim C3, counterexample -/

theorem InstrWF_toggle (ins : Instruction) (h : InstrWF ins) :
    InstrWF (toggleInstr ins) := by
  obtain ⟨hlen, hreg⟩ := h
  unfold toggleInstr
  by_cases h1 : ins.args.length = 1
  · rw [if_pos h1]
    refine ⟨?_, hreg⟩
    by_cases hop : ins.op = .INC <;> simp [hop, opArity, h1]
  · rw [if_neg h1]
    refine ⟨?_, hreg⟩
    by_cases hop : ins.op = .JNZ <;> cases hcase : ins.op <;>
      simp_all [opArity]

theorem ProgWF_set (l : List Instruction) (n : Nat) (x : Instruction)
    (hl : ProgWF l) (hx : InstrWF x) : ProgWF (l.set n x) := by
  intro p hp
  rcases List.mem_or_eq_of_mem_set hp with hp | rfl
  · exact hl p hp
  · exact hx

theorem lookupOpt_mem (opts : List OptEntry) (pc : Int) (skip : Nat)
    (f : Fused) (h : lookupOpt opts pc = some (skip, f)) :
    ∃ i, (i, skip, f) ∈ opts := by
  unfold lookupOpt at h
  cases hf : opts.find? (fun e => (e.1 : Int) = pc) with
  | none => simp [hf] at h
  | some e =>
    obtain ⟨i, sk2, f2⟩ := e
    simp only [hf] at h
    cases h
    exact ⟨i, List.mem_of_find?_eq_some hf⟩

theorem Day23.applyFusedE_total (skip : Nat) (f : Fused) (s : Day23.VM)
    (hok : FusedRegsOk f) : ∃ s1, Day23.applyFusedE skip f s = .ok s1 := by
  cases f with
  | ADD target source =>
    obtain ⟨ht, hs⟩ := hok
    have hres : Day23.applyFusedE skip (.ADD target source) s =
        .ok { s with
          regs := (s.regs.set target
            (s.regs.get target + s.regs.get source)).set source 0,
          pc := s.pc + skip } := by
      simp only [Day23.applyFusedE, Regs.getE_valid ht, Regs.getE_valid hs,
        Regs.setE_valid ht, Regs.setE_valid hs]
    exact ⟨_, hres⟩
  | MUL target src outer temp =>
    obtain ⟨ht, ho, htm, hsr⟩ := hok
    have hres : Day23.applyFusedE skip (.MUL target src outer temp) s =
        .ok { s with
          regs := ((s.regs.set target
            (s.regs.get target +
              resolveT s.regs src * s.regs.get outer)).set temp 0).set outer 0,
          pc := s.pc + skip } := by
      simp only [Day23.applyFusedE, resolveE_valid hsr, Regs.getE_valid ht,
        Regs.getE_valid ho, Regs.setE_valid ht, Regs.setE_valid htm,
        Regs.setE_valid ho]
    exact ⟨_, hres⟩

/-- Claim C3 (amended): for a well-formed program — every instruction has
the arity of its mnemonic and register operands carry indices 0..3, as the
parser guarantees — and a cached map whose captured operands denote
registers, every step taken from a *running* state (`0 ≤ pc < len`) is
total, and the claimed no-ops really are no-ops: a `cpy` whose destination
is not a register, an `inc`/`dec` whose operand is not a register, and a
`tgl` whose target is out of range each leave everything but the pc
unchanged.  (The unrestricted claim is refuted by `C3_short_cpy_raises`: a
decodable program with a missing operand raises `IndexError`; with a
negative pc the fetch itself can raise, see `C1_negative_pc_keeps_running`;
and a mapped macro can capture a literal operand and subscript the register
file out of range.) -/
theorem C3_step_totality :
    (∀ s : Day23.VM,
      ProgWF s.instructions → OptsRegsOk s.optimizations →
      0 ≤ s.pc → s.pc < (s.instructions.length : Int) →
      ∃ s1, Day23.stepE s = .ok s1) ∧
    (∀ (s : Day23.VM) (args : List Argument) (a1 : Argument),
      lookupOpt s.optimizations s.pc = none →
      pyIdx s.instructions s.pc = .ok ⟨.CPY, args⟩ →
      pyNth args 1 = .ok a1 → a1.is_reg = false →
      Day23.stepE s = .ok { s with pc := s.pc + 1 }) ∧
    (∀ (s : Day23.VM) (args : List Argument) (a0 : Argument),
      lookupOpt s.optimizations s.pc = none →
      pyIdx s.instructions s.pc = .ok ⟨.INC, args⟩ →
      pyNth args 0 = .ok a0 → a0.is_reg = false →
      Day23.stepE s = .ok { s with pc := s.pc + 1 }) ∧
    (∀ (s : Day23.VM) (args : List Argument) (a0 : Argument),
      lookupOpt s.optimizations s.pc = none →
      pyIdx s.instructions s.pc = .ok ⟨.DEC, args⟩ →
      pyNth args 0 = .ok a0 → a0.is_reg = false →
      Day23.stepE s = .ok { s with pc := s.pc + 1 }) ∧
    (∀ (s : Day23.VM) (args : List Argument) (a0 : Argument) (v : Int),
      lookupOpt s.optimizations s.pc = none →
      pyIdx s.instructions s.pc = .ok ⟨.TGL, args⟩ →
      pyNth args 0 = .ok a0 → resolveE s.regs a0 = .ok v →
      ¬ (0 ≤ s.pc + v ∧ s.pc + v < (s.instructions.length : Int)) →
      Day23.stepE s = .ok { s with pc := s.pc + 1 }) := by
  refine ⟨?_, ?_, ?_, ?_, ?_⟩
  · intro s hwf hok h0 hn
    simp only [Day23.stepE]
    cases hl : lookupOpt s.optimizations s.pc with
    | some e =>
      obtain ⟨skip, f⟩ := e
      have hf : FusedRegsOk f := by
        obtain ⟨i, hmem⟩ := lookupOpt_mem _ _ _ _ hl
        exact hok _ hmem
      exact Day23.applyFusedE_total skip f s hf
    | none =>
      obtain ⟨instr, hfetch, hmem⟩ := pyIdx_ok s.instructions s.pc h0 hn
      have hiwf := hwf instr hmem
      obtain ⟨op, args⟩ := instr
      obtain ⟨hlen, hreg⟩ := hiwf
      simp only [Day23.instrStepE, hfetch]
      cases op with
      | CPY =>
        obtain ⟨a1, ha1, ha1m⟩ := pyNth_ok args 1 (by rw [hlen]; simp [opArity])
        simp only [ha1]
        by_cases hr1 : a1.is_reg = true
        · rw [if_pos hr1]
          obtain ⟨a0, ha0, ha0m⟩ := pyNth_ok args 0 (by rw [hlen]; simp [opArity])
          simp only [ha0]
          obtain ⟨v, hv⟩ := resolveE_ok s.regs a0 (hreg a0 ha0m)
          simp only [hv, Regs.setE_valid (hreg a1 ha1m hr1)]
          exact ⟨_, rfl⟩
        · rw [if_neg hr1]; exact ⟨_, rfl⟩
      | INC =>
        obtain ⟨a0, ha0, ha0m⟩ := pyNth_ok args 0 (by rw [hlen]; simp [opArity])
        simp only [ha0]
        by_cases hr0 : a0.is_reg = true
        · rw [if_pos hr0]
          simp only [Regs.getE_valid (hreg a0 ha0m hr0),
            Regs.setE_valid (hreg a0 ha0m hr0)]
          exact ⟨_, rfl⟩
        · rw [if_neg hr0]; exact ⟨_, rfl⟩
      | DEC =>
        obtain ⟨a0, ha0, ha0m⟩ := pyNth_ok args 0 (by rw [hlen]; simp [opArity])
        simp only [ha0]
        by_cases hr0 : a0.is_reg = true
        · rw [if_pos hr0]
          simp only [Regs.getE_valid (hreg a0 ha0m hr0),
            Regs.setE_valid (hreg a0 ha0m hr0)]
          exact ⟨_, rfl⟩
        · rw [if_neg hr0]; exact ⟨_, rfl⟩
      | JNZ =>
        obtain ⟨a0, ha0, ha0m⟩ := pyNth_ok args 0 (by rw [hlen]; simp [opArity])
        simp only [ha0]
        obtain ⟨v, hv⟩ := resolveE_ok s.regs a0 (hreg a0 ha0m)
        simp only [hv]
        by_cases hz : v ≠ 0
        · rw [if_pos hz]
          obtain ⟨a1, ha1, ha1m⟩ := pyNth_ok args 1 (by rw [hlen]; simp [opArity])
          simp only [ha1]
          obtain ⟨off, hoff⟩ := resolveE_ok s.regs a1 (hreg a1 ha1m)
          simp only [hoff]
          exact ⟨_, rfl⟩
        · rw [if_neg hz]; exact ⟨_, rfl⟩
      | TGL =>
        obtain ⟨a0, ha0, ha0m⟩ := pyNth_ok args 0 (by rw [hlen]; simp [opArity])
        simp only [ha0]
        obtain ⟨v, hv⟩ := resolveE_ok s.regs a0 (hreg a0 ha0m)
        simp only [hv]
        by_cases hin : 0 ≤ s.pc + v ∧ s.pc + v < (s.instructions.length : Int)
        · rw [if_pos hin]
          obtain ⟨ti, hti, htim⟩ := pyIdx_ok s.instructions (s.pc + v)
            hin.1 hin.2
          simp only [hti]
          obtain ⟨m, hm⟩ := find_optimizations_total
            (s.instructions.set (s.pc + v).toNat (toggleInstr ti)).length
            (s.instructions.set (s.pc + v).toNat (toggleInstr ti)) 0
            (ProgWF_set _ _ _ hwf (InstrWF_toggle ti (hwf ti htim))) le_rfl
          simp only [hm]
          exact ⟨_, rfl⟩
        · rw [if_neg hin]; exact ⟨_, rfl⟩
      | OUT => exact ⟨s, rfl⟩
  · intro s args a1 hl hf ha1 hr1
    simp [Day23.stepE, hl, Day23.instrStepE, hf, ha1, hr1]
  · intro s args a0 hl hf ha0 hr0
    simp [Day23.stepE, hl, Day23.instrStepE, hf, ha0, hr0]
  · intro s args a0 hl hf ha0 hr0
    simp [Day23.stepE, hl, Day23.instrStepE, hf, ha0, hr0]
  · intro s args a0 v hl hf ha0 hv hout
    simp [Day23.stepE, hl, Day23.instrStepE, hf, ha0, hv, hout]

/-- Witness for `C3_step_totality`: the five parts at concrete states —
a well-formed `inc a; inc a` program mid-run, `cpy 1 2` (literal
destination), `inc 5` and `dec 5` (literal operands), and `tgl 5` (target
out of range). -/
theorem C3_step_totality_witness :
    (∃ s1, Day23.stepE ⟨progNoTgl, [], ⟨0, 0, 0, 0⟩, 0⟩ = .ok s1) ∧
    Day23.stepE ⟨[⟨.CPY, [litArg 1, litArg 2]⟩], [], ⟨0, 0, 0, 0⟩, 0⟩ =
      .ok ⟨[⟨.CPY, [litArg 1, litArg 2]⟩], [], ⟨0, 0, 0, 0⟩, 1⟩ ∧
    Day23.stepE ⟨[⟨.INC, [litArg 5]⟩], [], ⟨0, 0, 0, 0⟩, 0⟩ =
      .ok ⟨[⟨.INC, [litArg 5]⟩], [], ⟨0, 0, 0, 0⟩, 1⟩ ∧
    Day23.stepE ⟨[⟨.DEC, [litArg 5]⟩], [], ⟨0, 0, 0, 0⟩, 0⟩ =
      .ok ⟨[⟨.DEC, [litArg 5]⟩], [], ⟨0, 0, 0, 0⟩, 1⟩ ∧
    Day23.stepE ⟨[⟨.TGL, [litArg 5]⟩], [], ⟨0, 0, 0, 0⟩, 0⟩ =
      .ok ⟨[⟨.TGL, [litArg 5]⟩], [], ⟨0, 0, 0, 0⟩, 1⟩ := by
  refine ⟨?_, ?_, ?_, ?_, ?_⟩
  · exact C3_step_totality.1 ⟨progNoTgl, [], ⟨0, 0, 0, 0⟩, 0⟩ (by decide)
      (by decide) (by decide) (by decide)
  · exact C3_step_totality.2.1 ⟨[⟨.CPY, [litArg 1, litArg 2]⟩], [],
      ⟨0, 0, 0, 0⟩, 0⟩ [litArg 1, litArg 2] (litArg 2) (by decide) (by decide)
      (by decide) (by decide)
  · exact C3_step_totality.2.2.1 ⟨[⟨.INC, [litArg 5]⟩], [], ⟨0, 0, 0, 0⟩, 0⟩
      [litArg 5] (litArg 5) (by decide) (by decide) (by decide) (by decide)
  · exact C3_step_totality.2.2.2.1 ⟨[⟨.DEC, [litArg 5]⟩], [], ⟨0, 0, 0, 0⟩, 0⟩
      [litArg 5] (litArg 5) (by decide) (by decide) (by decide) (by decide)
  · exact C3_step_totality.2.2.2.2 ⟨[⟨.TGL, [litArg 5]⟩], [], ⟨0, 0, 0, 0⟩, 0⟩
      [litArg 5] (litArg 5) 5 (by decide) (by decide) (by decide) (by decide)
      (by decide)

/-- Claim C3 counterexample: `cpy 1` is syntactically valid in the claim's
sense (its only operand decodes as a signed integer), yet executing it
subscripts the missing `args[1]` and raises `IndexError`: the step relation
is not total over all programs whose operands decode. -/
theorem C3_short_cpy_raises :
    Day23.run progCpyShort 0 10 = .error .indexError := by decide

/-! ### Claim C5, counterexample -/

/-- Claim C5 counterexample: `run` resets registers, pc and the optimization
cache but not the instruction store, so on `tgl 1; inc a` the first run
returns -1 and leaves `tgl 1; dec a` behind, and the second run on the
retained store returns 1. -/
theorem C5_tgl_survives_runs :
    (Day23.run progTglPersist 0 10).map
        (Option.map (fun v => (v.regs.a, v.instructions))) =
      .ok (some (-1, progTglPersistAfter)) ∧
    finalA (Day23.run progTglPersistAfter 0 10) = some 1 ∧
    (-1 : Int) ≠ 1 := by
  refine ⟨by decide, by decide, by decide⟩

/-! ### Frame lemmas: which steps can change the store or the cache -/

theorem pyIdx_mem {α : Type} (l : List α) (i : Int) (x : α)
    (h : pyIdx l i = .ok x) : x ∈ l := by
  simp only [pyIdx] at h
  generalize hg : (if i < 0 then i + (l.length : Int) else i) = j at h
  by_cases h0 : 0 ≤ j
  · rw [if_pos h0] at h
    cases h2 : l.get? j.toNat with
    | none => simp only [h2] at h; cases h
    | some y => simp only [h2] at h; cases h; exact List.get?_mem h2
  · rw [if_neg h0] at h
    cases h

theorem Day23.applyFusedE_frame (skip : Nat) (f : Fused) (s s1 : Day23.VM)
    (h : Day23.applyFusedE skip f s = .ok s1) :
    s1.instructions = s.instructions ∧ s1.optimizations = s.optimizations := by
  cases f with
  | ADD target source =>
    simp only [Day23.applyFusedE] at h
    cases h1 : s.regs.getE target with
    | error e => simp [h1] at h
    | ok tv =>
      simp only [h1] at h
      cases h2 : s.regs.getE source with
      | error e => simp [h2] at h
      | ok sv =>
        simp only [h2] at h
        cases h3 : s.regs.setE target (tv + sv) with
        | error e => simp [h3] at h
        | ok r1 =>
          simp only [h3] at h
          cases h4 : r1.setE source 0 with
          | error e => simp [h4] at h
          | ok r2 =>
            simp only [h4] at h
            cases h
            exact ⟨rfl, rfl⟩
  | MUL target src outer temp =>
    simp only [Day23.applyFusedE] at h
    cases h0 : resolveE s.regs src with
    | error e => simp [h0] at h
    | ok v =>
      simp only [h0] at h
      cases h1 : s.regs.getE target with
      | error e => simp [h1] at h
      | ok tv =>
        simp only [h1] at h
        cases h2 : s.regs.getE outer with
        | error e => simp [h2] at h
        | ok ov =>
          simp only [h2] at h
          cases h3 : s.regs.setE target (tv + v * ov) with
          | error e => simp [h3] at h
          | ok r1 =>
            simp only [h3] at h
            cases h4 : r1.setE temp 0 with
            | error e => simp [h4] at h
            | ok r2 =>
              simp only [h4] at h
              cases h5 : r2.setE outer 0 with
              | error e => simp [h5] at h
              | ok r3 =>
                simp only [h5] at h
                cases h
                exact ⟨rfl, rfl⟩

theorem Day23.instrStepE_frame (s s1 : Day23.VM)
    (h : Day23.instrStepE s = .ok s1) :
    (s1.instructions = s.instructions ∧ s1.optimizations = s.optimizations) ∨
    ((∃ x, pyIdx s.instructions s.pc = .ok x ∧ x.op = .TGL) ∧
      find_optimizations s1.instructions 0 = .ok s1.optimizations) := by
  simp only [Day23.instrStepE] at h
  cases hf : pyIdx s.instructions s.pc with
  | error e => simp [hf] at h
  | ok instr =>
    simp only [hf] at h
    obtain ⟨op, args⟩ := instr
    cases op with
    | CPY =>
      left
      cases h1 : pyNth args 1 with
      | error e => simp [h1] at h
      | ok a1 =>
        simp only [h1] at h
        by_cases hreg : a1.is_reg = true
        · rw [if_pos hreg] at h
          cases h2 : pyNth args 0 with
          | error e => simp [h2] at h
          | ok a0 =>
            simp only [h2] at h
            cases h3 : resolveE s.regs a0 with
            | error e => simp [h3] at h
            | ok v =>
              simp only [h3] at h
              cases h4 : s.regs.setE a1.val v with
              | error e => simp [h4] at h
              | ok r => simp only [h4] at h; cases h; exact ⟨rfl, rfl⟩
        · rw [if_neg hreg] at h
          cases h
          exact ⟨rfl, rfl⟩
    | INC =>
      left
      cases h1 : pyNth args 0 with
      | error e => simp [h1] at h
      | ok a0 =>
        simp only [h1] at h
        by_cases hreg : a0.is_reg = true
        · rw [if_pos hreg] at h
          cases h2 : s.regs.getE a0.val with
          | error e => simp [h2] at h
          | ok v =>
            simp only [h2] at h
            cases h3 : s.regs.setE a0.val (v + 1) with
            | error e => simp [h3] at h
            | ok r => simp only [h3] at h; cases h; exact ⟨rfl, rfl⟩
        · rw [if_neg hreg] at h; cases h; exact ⟨rfl, rfl⟩
    | DEC =>
      left
      cases h1 : pyNth args 0 with
      | error e => simp [h1] at h
      | ok a0 =>
        simp only [h1] at h
        by_cases hreg : a0.is_reg = true
        · rw [if_pos hreg] at h
          cases h2 : s.regs.getE a0.val with
          | error e => simp [h2] at h
          | ok v =>
            simp only [h2] at h
            cases h3 : s.regs.setE a0.val (v - 1) with
            | error e => simp [h3] at h
            | ok r => simp only [h3] at h; cases h; exact ⟨rfl, rfl⟩
        · rw [if_neg hreg] at h; cases h; exact ⟨rfl, rfl⟩
    | JNZ =>
      left
      cases h1 : pyNth args 0 with
      | error e => simp [h1] at h
      | ok a0 =>
        simp only [h1] at h
        cases h2 : resolveE s.regs a0 with
        | error e => simp [h2] at h
        | ok v =>
          simp only [h2] at h
          by_cases hz : v ≠ 0
          · rw [if_pos hz] at h
            cases h3 : pyNth args 1 with
            | error e => simp [h3] at h
            | ok a1 =>
              simp only [h3] at h
              cases h4 : resolveE s.regs a1 with
              | error e => simp [h4] at h
              | ok off => simp only [h4] at h; cases h; exact ⟨rfl, rfl⟩
          · rw [if_neg hz] at h; cases h; exact ⟨rfl, rfl⟩
    | TGL =>
      cases h1 : pyNth args 0 with
      | error e => simp [h1] at h
      | ok a0 =>
        simp only [h1] at h
        cases h2 : resolveE s.regs a0 with
        | error e => simp [h2] at h
        | ok v =>
          simp only [h2] at h
          by_cases hin : 0 ≤ s.pc + v ∧ s.pc + v < (s.instructions.length : Int)
          · rw [if_pos hin] at h
            cases h3 : pyIdx s.instructions (s.pc + v) with
            | error e => simp [h3] at h
            | ok ti =>
              simp only [h3] at h
              cases h4 : find_optimizations
                  (s.instructions.set (s.pc + v).toNat (toggleInstr ti)) 0 with
              | error e => simp [h4] at h
              | ok m =>
                simp only [h4] at h
                cases h
                right
                exact ⟨⟨⟨.TGL, args⟩, rfl, rfl⟩, h4⟩
          · rw [if_neg hin] at h; cases h; left; exact ⟨rfl, rfl⟩
    | OUT =>
      left
      cases h
      exact ⟨rfl, rfl⟩

theorem Day23.stepE_frame (s s1 : Day23.VM) (h : Day23.stepE s = .ok s1) :
    (s1.instructions = s.instructions ∧ s1.optimizations = s.optimizations) ∨
    ((∃ x, pyIdx s.instructions s.pc = .ok x ∧ x.op = .TGL) ∧
      find_optimizations s1.instructions 0 = .ok s1.optimizations) := by
  simp only [Day23.stepE] at h
  cases hl : lookupOpt s.optimizations s.pc with
  | some e =>
    obtain ⟨skip, f⟩ := e
    simp only [hl] at h
    left
    exact Day23.applyFusedE_frame skip f s s1 h
  | none =>
    simp only [hl] at h
    exact Day23.instrStepE_frame s s1 h

theorem Day23.runLoopE_no_tgl (fuel : Nat) :
    ∀ (s vm : Day23.VM),
    (∀ ins ∈ s.instructions, ins.op ≠ .TGL) →
    Day23.runLoopE fuel s = .ok (some vm) →
    vm.instructions = s.instructions := by
  induction fuel with
  | zero => intro s vm _ hr; simp [Day23.runLoopE] at hr
  | succ n ih =>
    intro s vm hno hr
    simp only [Day23.runLoopE] at hr
    by_cases hpc : s.pc < (s.instructions.length : Int)
    · rw [if_pos hpc] at hr
      cases hstep : Day23.stepE s with
      | error e => simp [hstep] at hr
      | ok s1 =>
        simp only [hstep] at hr
        have hframe := Day23.stepE_frame s s1 hstep
        have hinstr : s1.instructions = s.instructions := by
          rcases hframe with ⟨h1, _⟩ | ⟨⟨x, hx, hxop⟩, _⟩
          · exact h1
          · exact absurd hxop (hno x (pyIdx_mem _ _ _ hx))
        have hrec := ih s1 vm (by rw [hinstr]; exact hno) hr
        rw [hrec, hinstr]
    · rw [if_neg hpc] at hr
      cases hr
      rfl

theorem Day25.applyFusedE_seen (skip : Nat) (f : Fused) (s s1 : Day25.SigVM)
    (h : Day25.applyFusedE skip f s = .ok s1) : s1.seen = s.seen := by
  cases f with
  | ADD target source =>
    simp only [Day25.applyFusedE] at h
    cases h1 : s.regs.getE target with
    | error e => simp [h1] at h
    | ok tv =>
      simp only [h1] at h
      cases h2 : s.regs.getE source with
      | error e => simp [h2] at h
      | ok sv =>
        simp only [h2] at h
        cases h3 : s.regs.setE target (tv + sv) with
        | error e => simp [h3] at h
        | ok r1 =>
          simp only [h3] at h
          cases h4 : r1.setE source 0 with
          | error e => simp [h4] at h
          | ok r2 => simp only [h4] at h; cases h; rfl
  | MUL target src outer temp =>
    simp only [Day25.applyFusedE] at h
    cases h0 : resolveE s.regs src with
    | error e => simp [h0] at h
    | ok v =>
      simp only [h0] at h
      cases h1 : s.regs.getE target with
      | error e => simp [h1] at h
      | ok tv =>
        simp only [h1] at h
        cases h2 : s.regs.getE outer with
        | error e => simp [h2] at h
        | ok ov =>
          simp only [h2] at h
          cases h3 : s.regs.setE target (tv + v * ov) with
          | error e => simp [h3] at h
          | ok r1 =>
            simp only [h3] at h
            cases h4 : r1.setE temp 0 with
            | error e => simp [h4] at h
            | ok r2 =>
              simp only [h4] at h
              cases h5 : r2.setE outer 0 with
              | error e => simp [h5] at h
              | ok r3 => simp only [h5] at h; cases h; rfl

theorem Day25.instrStepE_seen (s s1 : Day25.SigVM)
    (h : Day25.instrStepE s = .ok (.inr s1)) : s1.seen = s.seen := by
  simp only [Day25.instrStepE] at h
  cases hf : pyIdx s.instructions s.pc with
  | error e => simp [hf] at h
  | ok instr =>
    simp only [hf] at h
    obtain ⟨op, args⟩ := instr
    cases op with
    | CPY =>
      cases h1 : pyNth args 1 with
      | error e => simp [h1] at h
      | ok a1 =>
        simp only [h1] at h
        by_cases hreg : a1.is_reg = true
        · rw [if_pos hreg] at h
          cases h2 : pyNth args 0 with
          | error e => simp [h2] at h
          | ok a0 =>
            simp only [h2] at h
            cases h3 : resolveE s.regs a0 with
            | error e => simp [h3] at h
            | ok v =>
              simp only [h3] at h
              cases h4 : s.regs.setE a1.val v with
              | error e => simp [h4] at h
              | ok r => simp only [h4] at h; cases h; rfl
        · rw [if_neg hreg] at h; cases h; rfl
    | INC =>
      cases h1 : pyNth args 0 with
      | error e => simp [h1] at h
      | ok a0 =>
        simp only [h1] at h
        by_cases hreg : a0.is_reg = true
        · rw [if_pos hreg] at h
          cases h2 : s.regs.getE a0.val with
          | error e => simp [h2] at h
          | ok v =>
            simp only [h2] at h
            cases h3 : s.regs.setE a0.val (v + 1) with
            | error e => simp [h3] at h
            | ok r => simp only [h3] at h; cases h; rfl
        · rw [if_neg hreg] at h; cases h; rfl
    | DEC =>
      cases h1 : pyNth args 0 with
      | error e => simp [h1] at h
      | ok a0 =>
        simp only [h1] at h
        by_cases hreg : a0.is_reg = true
        · rw [if_pos hreg] at h
          cases h2 : s.regs.getE a0.val with
          | error e => simp [h2] at h
          | ok v =>
            simp only [h2] at h
            cases h3 : s.regs.setE a0.val (v - 1) with
            | error e => simp [h3] at h
            | ok r => simp only [h3] at h; cases h; rfl
        · rw [if_neg hreg] at h; cases h; rfl
    | JNZ =>
      cases h1 : pyNth args 0 with
      | error e => simp [h1] at h
      | ok a0 =>
        simp only [h1] at h
        cases h2 : resolveE s.regs a0 with
        | error e => simp [h2] at h
        | ok v =>
          simp only [h2] at h
          by_cases hz : v ≠ 0
          · rw [if_pos hz] at h
            cases h3 : pyNth args 1 with
            | error e => simp [h3] at h
            | ok a1 =>
              simp only [h3] at h
              cases h4 : resolveE s.regs a1 with
              | error e => simp [h4] at h
              | ok off => simp only [h4] at h; cases h; rfl
          · rw [if_neg hz] at h; cases h; rfl
    | OUT =>
      cases h1 : pyNth args 0 with
      | error e => simp [h1] at h
      | ok a0 =>
        simp only [h1] at h
        cases h2 : resolveE s.regs a0 with
        | error e => simp [h2] at h
        | ok v =>
          simp only [h2] at h
          by_cases hne : v ≠ s.next_expected
          · rw [if_pos hne] at h; cases h
          · rw [if_neg hne] at h; cases h; rfl
    | TGL =>
      cases h1 : pyNth args 0 with
      | error e => simp [h1] at h
      | ok a0 =>
        simp only [h1] at h
        cases h2 : resolveE s.regs a0 with
        | error e => simp [h2] at h
        | ok v =>
          simp only [h2] at h
          by_cases hin : 0 ≤ s.pc + v ∧ s.pc + v < (s.instructions.length : Int)
          · rw [if_pos hin] at h
            cases h3 : pyIdx s.instructions (s.pc + v) with
            | error e => simp [h3] at h
            | ok ti =>
              simp only [h3] at h
              cases h4 : find_optimizations
                  (s.instructions.set (s.pc + v).toNat (toggleInstr ti)) 0 with
              | error e => simp [h4] at h
              | ok m => simp only [h4] at h; cases h; rfl
          · rw [if_neg hin] at h; cases h; rfl

/-! ### Claim C4: the clock-signal verifier's return sites -/

/-- Claim C4: the `test_clock_signal` loop (1) returns `False` as soon as
the machine halts (`pc ≥ len`); (2) on the first repetition of a state key
`(pc, registers, next_expected)` it returns the comparison "output count now
exceeds the count recorded at the key's first occurrence", i.e. `True` iff at
least one output was produced between the two occurrences; (3) when a fresh
key is recorded, its table entry is exactly the current output count, so the
comparison in (2) measures the outputs in between; and (4) an `OUT` whose
resolved value differs from `next_expected` makes the loop return `False`
immediately. -/
theorem C4_test_signal_characterization :
    (∀ (s : Day25.SigVM) (fuel : Nat),
      ¬ s.pc < (s.instructions.length : Int) →
      Day25.sigLoopE (fuel + 1) s = .ok (some false)) ∧
    (∀ (s : Day25.SigVM) (fuel : Nat) (prev : Nat),
      s.pc < (s.instructions.length : Int) →
      Day25.lookupSeen s.seen (Day25.stateKey s) = some prev →
      Day25.sigLoopE (fuel + 1) s = .ok (some (decide (prev < s.output_count)))) ∧
    (∀ (s s1 : Day25.SigVM),
      s.pc < (s.instructions.length : Int) →
      Day25.lookupSeen s.seen (Day25.stateKey s) = none →
      Day25.sigBodyE s = .ok (.inr s1) →
      s1.seen = (Day25.stateKey s, s.output_count) :: s.seen) ∧
    (∀ (s : Day25.SigVM) (fuel : Nat) (args : List Argument) (arg : Argument)
        (v : Int),
      s.pc < (s.instructions.length : Int) →
      Day25.lookupSeen s.seen (Day25.stateKey s) = none →
      lookupOpt s.optimizations s.pc = none →
      pyIdx s.instructions s.pc = .ok ⟨.OUT, args⟩ →
      pyNth args 0 = .ok arg →
      resolveE s.regs arg = .ok v →
      v ≠ s.next_expected →
      Day25.sigLoopE (fuel + 1) s = .ok (some false)) := by
  refine ⟨?_, ?_, ?_, ?_⟩
  · intro s fuel hpc
    simp [Day25.sigLoopE, Day25.sigBodyE, hpc]
  · intro s fuel prev hpc hseen
    simp [Day25.sigLoopE, Day25.sigBodyE, if_pos hpc, hseen]
  · intro s s1 hpc hfresh hbody
    simp only [Day25.sigBodyE, if_pos hpc, hfresh] at hbody
    cases hl : lookupOpt s.optimizations s.pc with
    | some e =>
      obtain ⟨skip, f⟩ := e
      simp only [hl] at hbody
      cases ha : Day25.applyFusedE skip f
          { s with seen := (Day25.stateKey s, s.output_count) :: s.seen } with
      | error e2 => simp [ha] at hbody
      | ok s2 =>
        simp only [ha] at hbody
        cases hbody
        exact Day25.applyFusedE_seen _ _ _ _ ha
    | none =>
      simp only [hl] at hbody
      exact Day25.instrStepE_seen _ _ hbody
  · intro s fuel args arg v hpc hfresh hopt hf harg hv hne
    simp only [Day25.sigLoopE, Day25.sigBodyE, if_pos hpc, hfresh, hopt,
      Day25.instrStepE, hf, harg, hv, if_pos hne]

/-- Witness for `C4_test_signal_characterization`: the four parts at
concrete verifier states — a halted machine, a revisited state key with one
output in between, a fresh key being recorded across an `inc` step, and an
`out 1` against expected bit 0. -/
theorem C4_test_signal_characterization_witness :
    Day25.sigLoopE 1 ⟨[], [], ⟨0, 0, 0, 0⟩, 0, [], 0, 0⟩ = .ok (some false) ∧
    Day25.sigLoopE 1 ⟨[⟨.OUT, [litArg 0]⟩], [], ⟨0, 0, 0, 0⟩, 0,
        [((0, ⟨0, 0, 0, 0⟩, 0), 0)], 0, 1⟩ =
      .ok (some (decide (0 < 1))) ∧
    (⟨[⟨.INC, [regArg 0]⟩], [], ⟨1, 0, 0, 0⟩, 1,
        [((0, ⟨0, 0, 0, 0⟩, 0), 0)], 0, 0⟩ : Day25.SigVM).seen =
      ((0, ⟨0, 0, 0, 0⟩, 0), 0) :: [] ∧
    Day25.sigLoopE 1 ⟨[⟨.OUT, [litArg 1]⟩], [], ⟨0, 0, 0, 0⟩, 0, [], 0, 0⟩ =
      .ok (some false) := by
  refine ⟨?_, ?_, ?_, ?_⟩
  · exact C4_test_signal_characterization.1 ⟨[], [], ⟨0, 0, 0, 0⟩, 0, [], 0, 0⟩
      0 (by decide)
  · exact C4_test_signal_characterization.2.1
      ⟨[⟨.OUT, [litArg 0]⟩], [], ⟨0, 0, 0, 0⟩, 0,
        [((0, ⟨0, 0, 0, 0⟩, 0), 0)], 0, 1⟩ 0 0 (by decide) (by decide)
  · exact C4_test_signal_characterization.2.2.1
      ⟨[⟨.INC, [regArg 0]⟩], [], ⟨0, 0, 0, 0⟩, 0, [], 0, 0⟩
      ⟨[⟨.INC, [regArg 0]⟩], [], ⟨1, 0, 0, 0⟩, 1,
        [((0, ⟨0, 0, 0, 0⟩, 0), 0)], 0, 0⟩
      (by decide) (by decide) (by decide)
  · exact C4_test_signal_characterization.2.2.2
      ⟨[⟨.OUT, [litArg 1]⟩], [], ⟨0, 0, 0, 0⟩, 0, [], 0, 0⟩ 0
      [litArg 1] (litArg 1) 1 (by decide) (by decide) (by decide) (by decide)
      (by decide) (by decide) (by decide)

/-! ### Claim C5, amended theorem -/

/-- Claim C5 (amended): `run` resets the registers, the pc and the
optimization cache, but *not* the instruction store
(`C5_tgl_survives_runs`), so two consecutive run invocations are only
guaranteed to coincide when the store cannot change — in particular for any
program containing no `tgl` instruction, the run leaves the store intact and
a second run on the interpreter's retained store is literally the same
computation. -/
theorem C5_no_tgl_run_reproducible :
    ∀ (instrs : List Instruction) (a : Int) (fuel : Nat) (vm : Day23.VM),
    (∀ ins ∈ instrs, ins.op ≠ .TGL) →
    Day23.run instrs a fuel = .ok (some vm) →
    vm.instructions = instrs ∧
    Day23.run vm.instructions a fuel = Day23.run instrs a fuel := by
  intro instrs a fuel vm hno hrun
  unfold Day23.run at hrun
  split at hrun
  · exact absurd hrun (by simp)
  · have hpres := Day23.runLoopE_no_tgl fuel _ vm hno hrun
    exact ⟨hpres, by rw [hpres]⟩

/-- Witness for `C5_no_tgl_run_reproducible`: the `tgl`-free program
`inc a; inc a` run from `a = 5`. -/
theorem C5_no_tgl_run_reproducible_witness :
    (⟨progNoTgl, [], ⟨7, 0, 0, 0⟩, 2⟩ : Day23.VM).instructions = progNoTgl ∧
    Day23.run (⟨progNoTgl, [], ⟨7, 0, 0, 0⟩, 2⟩ : Day23.VM).instructions 5 10 =
      Day23.run progNoTgl 5 10 :=
  C5_no_tgl_run_reproducible progNoTgl 5 10 ⟨progNoTgl, [], ⟨7, 0, 0, 0⟩, 2⟩
    (by decide) (by decide)

/-! ### Claim C6, counterexample -/

/-- Claim C6 counterexample: the scanner caches `inc a; dec b; jnz 1 -2` as
an ADD span with captured operands `(a, b)` although the `jnz` condition is
the literal 1, not the register `b`: the matcher compares only operand
values, so a mapped span need not match the idiom shape's register
cross-references.  The mapped window differs from both register-operand ADD
shapes with the captured operands. -/
theorem C6_literal_cond_mapped :
    find_optimizations progAddLitCond 0 = .ok [(0, 3, .ADD 0 1)] ∧
    (progAddLitCond.get? 2).map (fun ins => ins.args.get? 0) =
      some (some (litArg 1)) ∧
    progAddLitCond ≠ addWindow 0 1 ∧
    progAddLitCond ≠ addWindowSwapped 0 1 := by
  refine ⟨by decide, by decide, by decide, by decide⟩

/-! ### Soundness of the idiom scanner -/

theorem scanChain_mono {i j : Nat} (hij : j ≤ i) {m : List OptEntry}
    (h : ScanChain i m) : ScanChain j m := by
  cases m with
  | nil => trivial
  | cons e rest => exact ⟨le_trans hij h.1, h.2⟩

theorem scanChain_le : ∀ (m : List OptEntry) (i : Nat), ScanChain i m →
    ∀ e ∈ m, i ≤ e.1 := by
  intro m
  induction m with
  | nil => intro i _ e he; cases he
  | cons a rest ihm =>
    intro i h e he
    rcases List.mem_cons.mp he with rfl | he
    · exact h.1
    · exact le_trans (le_trans h.1 (Nat.le_add_right _ _)) (ihm _ h.2 e he)

theorem scanChain_pairwise : ∀ (m : List OptEntry) (i : Nat), ScanChain i m →
    m.Pairwise (fun e1 e2 => e1.1 + e1.2.1 ≤ e2.1) := by
  intro m
  induction m with
  | nil => intro i _; exact List.Pairwise.nil
  | cons a rest ihm =>
    intro i h
    exact List.Pairwise.cons (fun y hy => scanChain_le rest _ h.2 y hy)
      (ihm _ h.2)

theorem windowMatch_cons (p : Instruction) (l : List Instruction)
    (k span : Nat) (f : Fused) (h : windowMatch l k span f) :
    windowMatch (p :: l) (k + 1) span f := by
  unfold windowMatch at h ⊢
  simpa [List.drop_succ_cons] using h

theorem windows_shift (p : Instruction) (l : List Instruction) (j : Nat)
    (m : List OptEntry)
    (h : ∀ e ∈ m, j + 1 ≤ e.1 ∧ (e.2.1 = 3 ∨ e.2.1 = 6) ∧
      windowMatch l (e.1 - (j + 1)) e.2.1 e.2.2) :
    ∀ e ∈ m, j ≤ e.1 ∧ (e.2.1 = 3 ∨ e.2.1 = 6) ∧
      windowMatch (p :: l) (e.1 - j) e.2.1 e.2.2 := by
  intro e he
  obtain ⟨h1, h2, h3⟩ := h e he
  refine ⟨by omega, h2, ?_⟩
  have hw := windowMatch_cons p l (e.1 - (j + 1)) e.2.1 e.2.2 h3
  have harith : e.1 - (j + 1) + 1 = e.1 - j := by omega
  rwa [harith] at hw

theorem find_optimizations_sound (bound : Nat) :
    ∀ (l : List Instruction) (i : Nat) (m : List OptEntry),
    l.length ≤ bound → find_optimizations l i = .ok m →
    ScanChain i m ∧
      ∀ e ∈ m, i ≤ e.1 ∧ (e.2.1 = 3 ∨ e.2.1 = 6) ∧
        windowMatch l (e.1 - i) e.2.1 e.2.2 := by
  induction bound with
  | zero =>
    intro l i m hlen h
    rcases l with _ | ⟨p0, l⟩
    · rw [find_optimizations] at h
      · cases h
        exact ⟨trivial, by simp⟩
      all_goals (intros; simp_all)
    · simp at hlen
  | succ b ih =>
    intro l i m hlen h
    rcases l with _ | ⟨p0, _ | ⟨p1, _ | ⟨p2, rest⟩⟩⟩
    · rw [find_optimizations] at h
      · cases h; exact ⟨trivial, by simp⟩
      all_goals (intros; simp_all)
    · rw [find_optimizations] at h
      · cases h; exact ⟨trivial, by simp⟩
      all_goals (intros; simp_all)
    · rw [find_optimizations] at h
      · cases h; exact ⟨trivial, by simp⟩
      all_goals (intros; simp_all)
    rcases rest with _ | ⟨p3, _ | ⟨p4, _ | ⟨p5, rest2⟩⟩⟩
    · -- exactly three instructions: only the ADD window can match
      rw [find_optimizations] at h
      pick_goal 2
      · intros; simp_all
      cases hA : matchAddE p0 p1 p2 with
      | error e => simp [hA] at h
      | ok of =>
        simp only [hA] at h
        cases of with
        | none =>
          have hs := ih (p1 :: p2 :: []) (i + 1) m (by simp at hlen ⊢; omega) h
          exact ⟨scanChain_mono (Nat.le_succ i) hs.1,
            windows_shift p0 _ i m hs.2⟩
        | some f =>
          cases hR : find_optimizations [] (i + 3) with
          | error e => simp [hR] at h
          | ok mm =>
            simp only [hR] at h
            cases h
            have hs := ih [] (i + 3) mm (by simp) hR
            refine ⟨⟨le_refl i, hs.1⟩, fun e he => ?_⟩
            rcases List.mem_cons.mp he with rfl | he
            · refine ⟨le_refl i, Or.inl rfl, ?_⟩
              simp only [windowMatch, Nat.sub_self]
              simpa [List.drop_zero] using hA
            · exact windows_shift p0 _ i mm
                (windows_shift p1 _ (i + 1) mm
                  (windows_shift p2 _ (i + 2) mm hs.2)) e he
    · -- four instructions
      rw [find_optimizations] at h
      pick_goal 2
      · intros; simp_all
      cases hA : matchAddE p0 p1 p2 with
      | error e => simp [hA] at h
      | ok of =>
        simp only [hA] at h
        cases of with
        | none =>
          have hs := ih (p1 :: p2 :: [p3]) (i + 1) m (by simp at hlen ⊢; omega) h
          exact ⟨scanChain_mono (Nat.le_succ i) hs.1,
            windows_shift p0 _ i m hs.2⟩
        | some f =>
          cases hR : find_optimizations [p3] (i + 3) with
          | error e => simp [hR] at h
          | ok mm =>
            simp only [hR] at h
            cases h
            have hs := ih [p3] (i + 3) mm (by simp at hlen ⊢; omega) hR
            refine ⟨⟨le_refl i, hs.1⟩, fun e he => ?_⟩
            rcases List.mem_cons.mp he with rfl | he
            · refine ⟨le_refl i, Or.inl rfl, ?_⟩
              simp only [windowMatch, Nat.sub_self]
              simpa [List.drop_zero] using hA
            · exact windows_shift p0 _ i mm
                (windows_shift p1 _ (i + 1) mm
                  (windows_shift p2 _ (i + 2) mm hs.2)) e he
    · -- five instructions
      rw [find_optimizations] at h
      pick_goal 2
      · intros; simp_all
      cases hA : matchAddE p0 p1 p2 with
      | error e => simp [hA] at h
      | ok of =>
        simp only [hA] at h
        cases of with
        | none =>
          have hs := ih (p1 :: p2 :: [p3, p4]) (i + 1) m
            (by simp at hlen ⊢; omega) h
          exact ⟨scanChain_mono (Nat.le_succ i) hs.1,
            windows_shift p0 _ i m hs.2⟩
        | some f =>
          cases hR : find_optimizations [p3, p4] (i + 3) with
          | error e => simp [hR] at h
          | ok mm =>
            simp only [hR] at h
            cases h
            have hs := ih [p3, p4] (i + 3) mm (by simp at hlen ⊢; omega) hR
            refine ⟨⟨le_refl i, hs.1⟩, fun e he => ?_⟩
            rcases List.mem_cons.mp he with rfl | he
            · refine ⟨le_refl i, Or.inl rfl, ?_⟩
              simp only [windowMatch, Nat.sub_self]
              simpa [List.drop_zero] using hA
            · exact windows_shift p0 _ i mm
                (windows_shift p1 _ (i + 1) mm
                  (windows_shift p2 _ (i + 2) mm hs.2)) e he
    · -- at least six instructions: the MUL window is tried first
      rw [find_optimizations] at h
      cases hM : matchMulE p0 p1 p2 p3 p4 p5 with
      | error e => simp [hM] at h
      | ok ofM =>
        simp only [hM] at h
        cases ofM with
        | some f =>
          cases hR : find_optimizations rest2 (i + 6) with
          | error e => simp [hR] at h
          | ok mm =>
            simp only [hR] at h
            cases h
            have hs := ih rest2 (i + 6) mm (by simp at hlen ⊢; omega) hR
            refine ⟨⟨le_refl i, hs.1⟩, fun e he => ?_⟩
            rcases List.mem_cons.mp he with rfl | he
            · refine ⟨le_refl i, Or.inr rfl, ?_⟩
              simp only [windowMatch, Nat.sub_self]
              simpa [List.drop_zero] using hM
            · exact windows_shift p0 _ i mm
                (windows_shift p1 _ (i + 1) mm
                  (windows_shift p2 _ (i + 2) mm
                    (windows_shift p3 _ (i + 3) mm
                      (windows_shift p4 _ (i + 4) mm
                        (windows_shift p5 _ (i + 5) mm hs.2))))) e he
        | none =>
          cases hA : matchAddE p0 p1 p2 with
          | error e => simp [hA] at h
          | ok ofA =>
            simp only [hA] at h
            cases ofA with
            | none =>
              have hs := ih (p1 :: p2 :: p3 :: p4 :: p5 :: rest2) (i + 1) m
                (by simp at hlen ⊢; omega) h
              exact ⟨scanChain_mono (Nat.le_succ i) hs.1,
                windows_shift p0 _ i m hs.2⟩
            | some f =>
              cases hR : find_optimizations (p3 :: p4 :: p5 :: rest2) (i + 3) with
              | error e => simp [hR] at h
              | ok mm =>
                simp only [hR] at h
                cases h
                have hs := ih (p3 :: p4 :: p5 :: rest2) (i + 3) mm
                  (by simp at hlen ⊢; omega) hR
                refine ⟨⟨le_refl i, hs.1⟩, fun e he => ?_⟩
                rcases List.mem_cons.mp he with rfl | he
                · refine ⟨le_refl i, Or.inl rfl, ?_⟩
                  simp only [windowMatch, Nat.sub_self]
                  simpa [List.drop_zero] using hA
                · exact windows_shift p0 _ i mm
                    (windows_shift p1 _ (i + 1) mm
                      (windows_shift p2 _ (i + 2) mm hs.2)) e he

/-- Claim C6 (amended): the per-step facts behind the optimization-map
invariant.  (1) Consistency is preserved: if the map equals the scanner's
output on the current store, it still does after any successful step — steps
that do not mutate the store leave both unchanged, and an in-bounds `tgl`
replaces the map with a fresh scan of the mutated store before the loop
continues.  (2) Every mapped entry has span 3 or 6 and its window satisfies
the matcher's structural conditions — opcode shape, literal `-2`/`-5`
offsets and operand-*value* cross-references (the matcher does not check
that those operands are registers: the stronger claim of an exact idiom
shape is refuted by `C6_literal_cond_mapped`).  (3) Mapped spans never
overlap. -/
theorem C6_optimization_map_invariant :
    (∀ s s1 : Day23.VM,
      find_optimizations s.instructions 0 = .ok s.optimizations →
      Day23.stepE s = .ok s1 →
      find_optimizations s1.instructions 0 = .ok s1.optimizations) ∧
    (∀ (l : List Instruction) (m : List OptEntry),
      find_optimizations l 0 = .ok m →
      ∀ e ∈ m, (e.2.1 = 3 ∨ e.2.1 = 6) ∧ windowMatch l e.1 e.2.1 e.2.2) ∧
    (∀ (l : List Instruction) (m : List OptEntry),
      find_optimizations l 0 = .ok m → m.Pairwise SpansDisjoint) := by
  refine ⟨?_, ?_, ?_⟩
  · intro s s1 hcons hstep
    rcases Day23.stepE_frame s s1 hstep with ⟨h1, h2⟩ | ⟨_, h⟩
    · rw [h1, h2]; exact hcons
    · exact h
  · intro l m h e he
    have hs := (find_optimizations_sound l.length l 0 m le_rfl h).2 e he
    exact ⟨hs.2.1, by simpa using hs.2.2⟩
  · intro l m h
    have hc := (find_optimizations_sound l.length l 0 m le_rfl h).1
    exact (scanChain_pairwise m 0 hc).imp (fun h12 => Or.inl h12)

/-- Witness for `C6_optimization_map_invariant`: consistency preservation
across one `inc` step of a two-instruction program, and the shape and
disjointness facts for the canonical scenario program's cached MUL entry. -/
theorem C6_optimization_map_invariant_witness :
    find_optimizations
        ((⟨progNoTgl, [], ⟨1, 0, 0, 0⟩, 1⟩ : Day23.VM)).instructions 0 =
      .ok (⟨progNoTgl, [], ⟨1, 0, 0, 0⟩, 1⟩ : Day23.VM).optimizations ∧
    ((6 = 3 ∨ 6 = 6) ∧
      windowMatch progScenario 2 6 (.MUL 0 (litArg 4) 1 2)) ∧
    ([(2, 6, Fused.MUL 0 (litArg 4) 1 2)] : List OptEntry).Pairwise
      SpansDisjoint := by
  refine ⟨?_, ?_, ?_⟩
  · exact C6_optimization_map_invariant.1 ⟨progNoTgl, [], ⟨0, 0, 0, 0⟩, 0⟩
      ⟨progNoTgl, [], ⟨1, 0, 0, 0⟩, 1⟩ (by decide) (by decide)
  · exact C6_optimization_map_invariant.2.1 progScenario
      [(2, 6, .MUL 0 (litArg 4) 1 2)] (by decide)
      (2, 6, .MUL 0 (litArg 4) 1 2) (by simp)
  · exact C6_optimization_map_invariant.2.2 progScenario
      [(2, 6, .MUL 0 (litArg 4) 1 2)] (by decide)

/-! ### Claim C7, counterexample -/

/-- Claim C7 counterexample: in the day 12 interpreter a taken `jnz 1 b`
adds the stored operand value (the register *index* of `b`, 1) to `pc`
rather than the resolved register content (3): the step from `pc = 1` with
`b = 3` lands on `pc = 2`, and the whole run of
`cpy 3 b; jnz 1 b; inc a; inc a` ends with `a = 2`, while the day 23
interpreter on the same program resolves the offset and ends with `a = 0`. -/
theorem C7_day12_raw_offset :
    Day12.stepE progJnzRegOffset ⟨0, 3, 0, 0⟩ 1 = .ok (⟨0, 3, 0, 0⟩, 2) ∧
    resolveT ⟨0, 3, 0, 0⟩ (regArg 1) = 3 ∧
    Day12.run_program progJnzRegOffset ⟨0, 0, 0, 0⟩ 20 =
      .ok (some ⟨2, 3, 0, 0⟩) ∧
    (Day23.run progJnzRegOffset 0 20).map (Option.map (·.regs)) =
      .ok (some ⟨0, 3, 0, 0⟩) ∧
    (2 : Int) ≠ 1 + 3 := by
  refine ⟨by decide, by decide, by decide, by decide, by decide⟩

/-- Claim C7 (amended): in the day 23 and day 25 interpreters a `jnz`
resolves its condition and, when the condition is non-zero, adds the
*resolved* offset (registers are read through the register file) to `pc`
without the default increment; a zero condition advances `pc` by exactly 1.
In the day 12 interpreter the condition is resolved the same way, but a
taken jump adds the raw stored operand value to `pc` — a register offset
argument contributes its register index, not the register's content
(refuted for day 12 as originally claimed by `C7_day12_raw_offset`).  The
day 12 statement is taken at positions where no peephole window fits
(`¬ pc + 2 < len`), so the plain dispatch runs. -/
theorem C7_jnz_offset_semantics :
    (∀ (s : Day23.VM) (a0 a1 : Argument) (v off : Int),
      pyIdx s.instructions s.pc = .ok ⟨.JNZ, [a0, a1]⟩ →
      resolveE s.regs a0 = .ok v →
      (v ≠ 0 → resolveE s.regs a1 = .ok off →
        Day23.instrStepE s = .ok { s with pc := s.pc + off }) ∧
      (v = 0 → Day23.instrStepE s = .ok { s with pc := s.pc + 1 })) ∧
    (∀ (s : Day25.SigVM) (a0 a1 : Argument) (v off : Int),
      pyIdx s.instructions s.pc = .ok ⟨.JNZ, [a0, a1]⟩ →
      resolveE s.regs a0 = .ok v →
      (v ≠ 0 → resolveE s.regs a1 = .ok off →
        Day25.instrStepE s = .ok (.inr { s with pc := s.pc + off })) ∧
      (v = 0 → Day25.instrStepE s = .ok (.inr { s with pc := s.pc + 1 }))) ∧
    (∀ (instrs : List Instruction) (r : Regs) (pc : Int) (a0 a1 : Argument)
        (v : Int),
      ¬ pc + 2 < (instrs.length : Int) →
      pyIdx instrs pc = .ok ⟨.JNZ, [a0, a1]⟩ →
      resolveE r a0 = .ok v →
      (v ≠ 0 → Day12.stepE instrs r pc = .ok (r, pc + a1.val)) ∧
      (v = 0 → Day12.stepE instrs r pc = .ok (r, pc + 1))) := by
  refine ⟨?_, ?_, ?_⟩
  · intro s a0 a1 v off hf hv
    constructor
    · intro hnz hoff
      exact Day23.instrStepE_jnz_taken s a0 a1 v off hf hv hnz hoff
    · intro hz
      subst hz
      exact Day23.instrStepE_jnz_zero s a0 a1 hf hv
  · intro s a0 a1 v off hf hv
    constructor
    · intro hnz hoff
      simp [Day25.instrStepE, hf, pyNth, hv, hnz, hoff]
    · intro hz
      subst hz
      simp [Day25.instrStepE, hf, pyNth, hv]
  · intro instrs r pc a0 a1 v hpeep hf hv
    constructor
    · intro hnz
      simp [Day12.stepE, hf, hpeep, pyNth, hv, hnz]
    · intro hz
      subst hz
      simp [Day12.stepE, hf, hpeep, pyNth, hv]

/-- Witness for `C7_jnz_offset_semantics`: a single taken `jnz 1 b` with
`b = 5`: both day 23 and day 25 jump by the register content 5, day 12
jumps by the stored register index 1; plus a zero-condition `jnz 0 b` step
for day 23. -/
theorem C7_jnz_offset_semantics_witness :
    Day23.instrStepE ⟨[⟨.JNZ, [litArg 1, regArg 1]⟩], [], ⟨0, 5, 0, 0⟩, 0⟩ =
      .ok ⟨[⟨.JNZ, [litArg 1, regArg 1]⟩], [], ⟨0, 5, 0, 0⟩, 5⟩ ∧
    Day25.instrStepE ⟨[⟨.JNZ, [litArg 1, regArg 1]⟩], [], ⟨0, 5, 0, 0⟩, 0, [], 0, 0⟩ =
      .ok (.inr ⟨[⟨.JNZ, [litArg 1, regArg 1]⟩], [], ⟨0, 5, 0, 0⟩, 5, [], 0, 0⟩) ∧
    Day12.stepE [⟨.JNZ, [litArg 1, regArg 1]⟩] ⟨0, 5, 0, 0⟩ 0 =
      .ok (⟨0, 5, 0, 0⟩, 1) ∧
    Day23.instrStepE ⟨[⟨.JNZ, [litArg 0, regArg 1]⟩], [], ⟨0, 5, 0, 0⟩, 0⟩ =
      .ok ⟨[⟨.JNZ, [litArg 0, regArg 1]⟩], [], ⟨0, 5, 0, 0⟩, 1⟩ := by
  refine ⟨?_, ?_, ?_, ?_⟩
  · have h := (C7_jnz_offset_semantics.1
      ⟨[⟨.JNZ, [litArg 1, regArg 1]⟩], [], ⟨0, 5, 0, 0⟩, 0⟩
      (litArg 1) (regArg 1) 1 5 (by decide) (by decide)).1 (by decide) (by decide)
    simpa using h
  · have h := (C7_jnz_offset_semantics.2.1
      ⟨[⟨.JNZ, [litArg 1, regArg 1]⟩], [], ⟨0, 5, 0, 0⟩, 0, [], 0, 0⟩
      (litArg 1) (regArg 1) 1 5 (by decide) (by decide)).1 (by decide) (by decide)
    simpa using h
  · have h := (C7_jnz_offset_semantics.2.2
      [⟨.JNZ, [litArg 1, regArg 1]⟩] ⟨0, 5, 0, 0⟩ 0
      (litArg 1) (regArg 1) 1 (by decide) (by decide) (by decide)).1 (by decide)
    simpa [litArg, regArg] using h
  · have h := (C7_jnz_offset_semantics.1
      ⟨[⟨.JNZ, [litArg 0, regArg 1]⟩], [], ⟨0, 5, 0, 0⟩, 0⟩
      (litArg 0) (regArg 1) 0 0 (by decide) (by decide)).2 rfl
    simpa using h

/-! ### Claim C8: the canonical MUL scenario -/

/-- Claim C8: the program `cpy 2 a; cpy 3 b; cpy 4 c; inc a; dec c;
jnz c -2; dec b; jnz b -5`, started with all registers 0, halts with
`a = 14` under the optimizing day 23 run (fusion fires on the window at
offset 2), under the non-optimized instruction-by-instruction loop, and
under the day 12 interpreter. -/
theorem C8_scenario_final_a_14 :
    finalA (Day23.run progScenario 0 100) = some 14 ∧
    Day23.plainLoopE 100 ⟨progScenario, [], ⟨0, 0, 0, 0⟩, 0⟩ =
      .ok (some ⟨progScenario, [], ⟨14, 0, 0, 0⟩, 8⟩) ∧
    Day12.run_program progScenario ⟨0, 0, 0, 0⟩ 100 =
      .ok (some ⟨14, 0, 0, 0⟩) := by
  refine ⟨by decide, by decide, by decide⟩

/-! ### Claim C9, counterexample -/

/-- Claim C9 counterexample: toggling twice does not return every
instruction to its original opcode: a `tgl` instruction (one argument)
toggles to `inc` and then to `dec`. -/
theorem C9_double_toggle_tgl :
    toggleInstr (toggleInstr ⟨.TGL, [litArg 0]⟩) = ⟨.DEC, [litArg 0]⟩ ∧
    Op.DEC ≠ Op.TGL := by
  refine ⟨by decide, by decide⟩

/-- Claim C9 (amended): the toggle flip never touches the argument list, and
it is an involution exactly on the instructions whose opcode already belongs
to the arity class the flip dispatches on: one-argument `inc`/`dec` and
other-arity `jnz`/`cpy`.  (Any other single-argument opcode — `tgl`, `out` —
is sent to `inc` and then to `dec`, see `C9_double_toggle_tgl`.) -/
theorem C9_toggle_involution :
    (∀ ins : Instruction, (toggleInstr ins).args = ins.args) ∧
    (∀ ins : Instruction,
      (ins.args.length = 1 ∧ (ins.op = .INC ∨ ins.op = .DEC)) ∨
      (ins.args.length ≠ 1 ∧ (ins.op = .JNZ ∨ ins.op = .CPY)) →
      toggleInstr (toggleInstr ins) = ins) := by
  constructor
  · intro ins
    unfold toggleInstr
    split <;> rfl
  · intro ins h
    rcases h with ⟨hlen, hop | hop⟩ | ⟨hlen, hop | hop⟩ <;>
      cases ins <;> simp_all [toggleInstr]

/-- Witness for `C9_toggle_involution`: both parts at concrete
instructions. -/
theorem C9_toggle_involution_witness :
    (toggleInstr ⟨.JNZ, [litArg 1, litArg (-2)]⟩).args = [litArg 1, litArg (-2)] ∧
    toggleInstr (toggleInstr ⟨.INC, [regArg 0]⟩) = ⟨.INC, [regArg 0]⟩ ∧
    toggleInstr (toggleInstr ⟨.JNZ, [litArg 1, litArg (-2)]⟩) =
      ⟨.JNZ, [litArg 1, litArg (-2)]⟩ := by
  refine ⟨C9_toggle_involution.1 _, ?_, ?_⟩
  · exact C9_toggle_involution.2 ⟨.INC, [regArg 0]⟩ (by decide)
  · exact C9_toggle_involution.2 ⟨.JNZ, [litArg 1, litArg (-2)]⟩ (by decide)

/-! ### Claim C10: a TGL whose argument resolves to 0 toggles itself -/

/-- Claim C10: when the current instruction is a one-argument `tgl` whose
operand resolves to 0 (and the pc, in range, is not a cached offset), the
step rewrites that very instruction's opcode to `inc` under the one-argument
rule, recomputes the optimization map from the mutated store, leaves the
registers untouched and advances `pc` by exactly 1 — so the freshly written
opcode is not executed within the same step.  Both the day 23 run loop and
the day 25 signal loop behave this way. -/
theorem C10_tgl_zero_self :
    (∀ (s : Day23.VM) (arg : Argument) (mp : List OptEntry),
      lookupOpt s.optimizations s.pc = none →
      pyIdx s.instructions s.pc = .ok ⟨.TGL, [arg]⟩ →
      resolveE s.regs arg = .ok 0 →
      0 ≤ s.pc → s.pc < (s.instructions.length : Int) →
      find_optimizations (s.instructions.set s.pc.toNat ⟨.INC, [arg]⟩) 0 = .ok mp →
      Day23.stepE s = .ok { s with
        instructions := s.instructions.set s.pc.toNat ⟨.INC, [arg]⟩,
        optimizations := mp, pc := s.pc + 1 }) ∧
    (∀ (s : Day25.SigVM) (arg : Argument) (mp : List OptEntry),
      pyIdx s.instructions s.pc = .ok ⟨.TGL, [arg]⟩ →
      resolveE s.regs arg = .ok 0 →
      0 ≤ s.pc → s.pc < (s.instructions.length : Int) →
      find_optimizations (s.instructions.set s.pc.toNat ⟨.INC, [arg]⟩) 0 = .ok mp →
      Day25.instrStepE s = .ok (.inr { s with
        instructions := s.instructions.set s.pc.toNat ⟨.INC, [arg]⟩,
        optimizations := mp, pc := s.pc + 1 })) := by
  constructor
  · intro s arg mp hlk hf hv h0 hn hscan
    have harg : pyNth [arg] 0 = .ok arg := rfl
    simp only [Day23.stepE, hlk, Day23.instrStepE, hf, harg, hv, add_zero]
    rw [if_pos ⟨h0, hn⟩]
    have htog : toggleInstr ⟨.TGL, [arg]⟩ = ⟨.INC, [arg]⟩ := by
      simp [toggleInstr]
    rw [htog, hscan]
  · intro s arg mp hf hv h0 hn hscan
    have harg : pyNth [arg] 0 = .ok arg := rfl
    simp only [Day25.instrStepE, hf, harg, hv, add_zero]
    rw [if_pos ⟨h0, hn⟩]
    have htog : toggleInstr ⟨.TGL, [arg]⟩ = ⟨.INC, [arg]⟩ := by
      simp [toggleInstr]
    rw [htog, hscan]

/-- Witness for `C10_tgl_zero_self`: the one-instruction program `tgl 0`
toggles itself into `inc 0` in both interpreters. -/
theorem C10_tgl_zero_self_witness :
    Day23.stepE ⟨[⟨.TGL, [litArg 0]⟩], [], ⟨0, 0, 0, 0⟩, 0⟩ =
      .ok ⟨[⟨.INC, [litArg 0]⟩], [], ⟨0, 0, 0, 0⟩, 1⟩ ∧
    Day25.instrStepE ⟨[⟨.TGL, [litArg 0]⟩], [], ⟨0, 0, 0, 0⟩, 0, [], 0, 0⟩ =
      .ok (.inr ⟨[⟨.INC, [litArg 0]⟩], [], ⟨0, 0, 0, 0⟩, 1, [], 0, 0⟩) := by
  constructor
  · exact C10_tgl_zero_self.1 ⟨[⟨.TGL, [litArg 0]⟩], [], ⟨0, 0, 0, 0⟩, 0⟩
      (litArg 0) [] (by decide) (by decide) (by decide) (by decide) (by decide)
      (by decide)
  · exact C10_tgl_zero_self.2 ⟨[⟨.TGL, [litArg 0]⟩], [], ⟨0, 0, 0, 0⟩, 0, [], 0, 0⟩
      (litArg 0) [] (by decide) (by decide) (by decide) (by decide) (by decide)

end Assembunny
